import Mathlib

/-!
Verification development for the empowered-indian MPLADS ingestion pipeline.
JavaScript source files are shallowly embedded: JS numbers are modelled as
exact rationals, fallible operations as Except or Option, and the network
as explicit scenario arguments.
-/

/-- Character class of the JS regex \s (ECMAScript WhiteSpace and
LineTerminator): used by String.prototype.trim and by the whitespace
stripping in parseIndianNumber. -/
def isJsSpace (c : Char) : Bool :=
  let n := c.toNat
  n == 32 || n == 9 || n == 10 || n == 13 || n == 11 || n == 12 ||
  n == 0xa0 || n == 0x1680 || (decide (0x2000 ≤ n) && decide (n ≤ 0x200a)) ||
  n == 0x2028 || n == 0x2029 || n == 0x202f || n == 0x205f || n == 0x3000 ||
  n == 0xfeff

/-- Drop leading characters satisfying p from the left, then from the right. -/
def trimListWith (p : Char → Bool) (l : List Char) : List Char :=
  ((l.dropWhile p).reverse.dropWhile p).reverse

/-- Model of JS String.prototype.trim. -/
def jsTrim (s : String) : String :=
  String.mk (trimListWith isJsSpace s.data)

/-- Whether the list n is a prefixOf the list h (character lists). -/
def listStartsWith : List Char → List Char → Bool
  | [], _ => true
  | _ :: _, [] => false
  | a :: as, b :: bs => a == b && listStartsWith as bs

/-- Whether needle occurs as a contiguous substring of hay; models
String.prototype.includes and a fixed-word regex test. -/
def containsSub (needle : List Char) : List Char → Bool
  | [] => listStartsWith needle []
  | c :: rest => listStartsWith needle (c :: rest) || containsSub needle rest

/-- String wrapper for containsSub: hay.includes needle. -/
def strIncludes (hay needle : String) : Bool :=
  containsSub needle.data hay.data

/-- Model of JS String.prototype.toLowerCase (ASCII range, which covers
every alphabet used by the embedded code). -/
def lowerStr (s : String) : String :=
  String.mk (s.data.map Char.toLower)

/-- Split a character list on a separator character; the JS
String.prototype.split semantics for a one-character separator (and the
semantics of String.splitOn for these inputs). -/
def splitOnCharList (sep : Char) : List Char → List (List Char)
  | [] => [[]]
  | c :: rest =>
    let r := splitOnCharList sep rest
    if c = sep then [] :: r
    else
      match r with
      | h :: t => (c :: h) :: t
      | [] => [[c]]

/-- String form of splitOnCharList. -/
def splitOnStr (s : String) (sep : Char) : List String :=
  (splitOnCharList sep s.data).map String.mk

/-- A JS regex test against a fixed alternation (a|b|...): true when any
alternative occurs somewhere in the subject. -/
def regexTestAny (alts : List (List Char)) (subject : List Char) : Bool :=
  alts.any (fun a => containsSub a subject)

/-- The regex class [0-9]. -/
def isDig (c : Char) : Bool :=
  decide (48 <= c.toNat) && decide (c.toNat <= 57)

/-- The decimal digit character for d (d is taken modulo the table). -/
def digitChar (d : ℕ) : Char :=
  match d with
  | 0 => '0' | 1 => '1' | 2 => '2' | 3 => '3' | 4 => '4'
  | 5 => '5' | 6 => '6' | 7 => '7' | 8 => '8' | 9 => '9'
  | _ => '0'

/-- Numeric value of a decimal digit character. -/
def digitVal (c : Char) : ℕ := c.toNat - 48

/-- Value of a most-significant-digit-first list of decimal digit characters. -/
def natOfDigits (l : List Char) : ℕ :=
  l.foldl (fun acc c => acc * 10 + digitVal c) 0

/-- Decimal digits of n, least significant first; empty for 0. -/
def natDigitsRev (n : ℕ) : List Char :=
  if h : n = 0 then []
  else digitChar (n % 10) :: natDigitsRev (n / 10)
decreasing_by exact Nat.div_lt_self (Nat.pos_of_ne_zero h) (by norm_num)

/-- Decimal digits of n, most significant first; "0" is the single digit 0. -/
def natMSDigits (n : ℕ) : List Char :=
  if n = 0 then ['0'] else (natDigitsRev n).reverse

/-- Decimal string of a natural number (JS Number printing for integers). -/
def natToString (n : ℕ) : String := String.mk (natMSDigits n)

/-- The plain decimal string for the rational m / 10 ^ k: the integer part
followed, when k > 0, by a point and exactly k fraction digits. -/
def decimalString (m k : ℕ) : String :=
  if k = 0 then natToString m
  else
    let fd := (natDigitsRev (m % 10 ^ k)).reverse
    String.mk (natMSDigits (m / 10 ^ k) ++ '.' :: (List.replicate (k - fd.length) '0' ++ fd))

theorem digitVal_digitChar (d : ℕ) (hd : d < 10) : digitVal (digitChar d) = d := by
  interval_cases d <;> decide

theorem isDig_digitChar (d : ℕ) (hd : d < 10) : isDig (digitChar d) = true := by
  interval_cases d <;> decide

theorem natOfDigits_append (l : List Char) (c : Char) :
    natOfDigits (l ++ [c]) = natOfDigits l * 10 + digitVal c := by
  simp [natOfDigits]

theorem natOfDigits_revRoundtrip (n : ℕ) :
    natOfDigits (natDigitsRev n).reverse = n := by
  induction n using Nat.strong_induction_on with
  | _ n ih =>
    by_cases h : n = 0
    · subst h; simp [natDigitsRev, natOfDigits]
    · rw [natDigitsRev]
      simp only [h, dite_false, List.reverse_cons]
      rw [natOfDigits_append, ih (n / 10) (Nat.div_lt_self (Nat.pos_of_ne_zero h) (by norm_num)),
        digitVal_digitChar (n % 10) (Nat.mod_lt n (by norm_num))]
      omega

theorem natOfDigits_natMSDigits (n : ℕ) : natOfDigits (natMSDigits n) = n := by
  by_cases h : n = 0
  · subst h; decide
  · simp [natMSDigits, h, natOfDigits_revRoundtrip]

theorem mem_natDigitsRev_isDig (n : ℕ) (c : Char) (hc : c ∈ natDigitsRev n) :
    isDig c = true := by
  induction n using Nat.strong_induction_on with
  | _ n ih =>
    by_cases h : n = 0
    · subst h; simp [natDigitsRev] at hc
    · rw [natDigitsRev] at hc
      simp only [h, dite_false, List.mem_cons] at hc
      rcases hc with hc | hc
      · subst hc; exact isDig_digitChar _ (Nat.mod_lt n (by norm_num))
      · exact ih (n / 10) (Nat.div_lt_self (Nat.pos_of_ne_zero h) (by norm_num)) hc

theorem mem_natMSDigits_isDig (n : ℕ) (c : Char) (hc : c ∈ natMSDigits n) :
    isDig c = true := by
  by_cases h : n = 0
  · subst h; simp [natMSDigits] at hc; subst hc; decide
  · simp only [natMSDigits, h, if_false, List.mem_reverse] at hc
    exact mem_natDigitsRev_isDig n c hc

theorem length_natDigitsRev_le (k : ℕ) :
    ∀ n : ℕ, n < 10 ^ k → (natDigitsRev n).length ≤ k := by
  induction k with
  | zero =>
    intro n hn
    interval_cases n
    simp [natDigitsRev]
  | succ k ih =>
    intro n hn
    by_cases h : n = 0
    · subst h; simp [natDigitsRev]
    · rw [natDigitsRev]
      simp only [h, dite_false, List.length_cons]
      have : n / 10 < 10 ^ k := by
        rw [Nat.div_lt_iff_lt_mul (by norm_num)]
        calc n < 10 ^ (k + 1) := hn
        _ = 10 ^ k * 10 := by ring
      exact Nat.succ_le_succ (ih (n / 10) this)

theorem natOfDigits_replicate_zero (j : ℕ) (l : List Char) :
    natOfDigits (List.replicate j '0' ++ l) = natOfDigits l := by
  induction j with
  | zero => simp
  | succ j ih =>
    have : List.replicate (j + 1) '0' ++ l = '0' :: (List.replicate j '0' ++ l) := by
      simp [List.replicate_succ]
    rw [this]
    simpa [natOfDigits, digitVal] using ih

/-! ## JS values

A small universe of JSON-ish JavaScript values, enough for the fields the
embedded code touches. undefined and null are kept distinct because the
source mixes strict comparisons with truthiness checks. -/

inductive JSVal where
  | vUndef
  | vNull
  | vStr (s : String)
  | vNum (q : ℚ)
  | vBool (b : Bool)
deriving DecidableEq

/-- JS truthiness. -/
def JSVal.truthy : JSVal → Bool
  | .vUndef => false
  | .vNull => false
  | .vStr s => !(s == "")
  | .vNum q => !(q == 0)
  | .vBool b => b

/-- The JS expression (a || b): b when a is falsy, else a. -/
def jsOr (a b : JSVal) : JSVal := if a.truthy then a else b

/-- Decimal string of a rational whose reduced denominator divides a power
of ten; other denominators (unreachable for the JS values modelled here)
print as num/den. Models JS Number toString for values printed in plain
decimal notation. -/
def ratDecimalString (q : ℚ) : String :=
  let sign := if q < 0 then "-" else ""
  let n := q.num.natAbs
  let d := q.den
  match (List.range (d + 1)).find? (fun k => 10 ^ k % d == 0) with
  | some k => sign ++ decimalString (n * (10 ^ k / d)) k
  | none => sign ++ natToString n ++ "/" ++ natToString d

/-- Model of JS String(v) / v.toString(). -/
def jsToString : JSVal → String
  | .vUndef => "undefined"
  | .vNull => "null"
  | .vStr s => s
  | .vNum q => ratDecimalString q
  | .vBool b => if b then "true" else "false"

/-- Leading-integer parse of a string after whitespace skipping: models JS
parseInt for decimal inputs (the automatic hexadecimal radix detection of
parseInt is not modelled; every id parsed by this program is decimal).
none models NaN. -/
def parseIntStr (s : String) : Option ℤ :=
  let l := s.data.dropWhile isJsSpace
  let core : List Char → Option ℕ := fun r =>
    let ds := r.takeWhile isDig
    if ds.isEmpty then none else some (natOfDigits ds)
  match l with
  | '-' :: r => (core r).map (fun n => -(n : ℤ))
  | '+' :: r => (core r).map (fun n => (n : ℤ))
  | r => (core r).map (fun n => (n : ℤ))

/-- JS parseInt applied to an arbitrary value: the value is stringified
first. -/
def jsParseInt (v : JSVal) : Option ℤ := parseIntStr (jsToString v)

/-- The JS pattern (parseInt x || 0): NaN collapses to 0. -/
def intOrZero (o : Option ℤ) : ℤ := o.getD 0

/-- The JS pattern (parseInt x || null): NaN and 0 both collapse to null. -/
def intOrNull (o : Option ℤ) : Option ℤ :=
  match o with
  | some n => if n = 0 then none else some n
  | none => none

/-- Leading decimal parse with optional sign and fraction: models JS
parseFloat for the plain decimal strings this program feeds it (exponent
notation is not modelled). none models NaN. -/
def parseFloatStr (s : String) : Option ℚ :=
  let l := s.data.dropWhile isJsSpace
  let core : List Char → Option ℚ := fun r =>
    let ds := r.takeWhile isDig
    if ds.isEmpty then none
    else
      let r2 := r.dropWhile isDig
      match r2 with
      | '.' :: r3 =>
        let fs := r3.takeWhile isDig
        some ((natOfDigits ds : ℚ) + (natOfDigits fs : ℚ) / 10 ^ fs.length)
      | _ => some (natOfDigits ds : ℚ)
  match l with
  | '-' :: r => (core r).map (fun q => -q)
  | '+' :: r => core r
  | r => core r

/-- JS parseFloat applied to an arbitrary value (stringified first). -/
def jsParseFloat (v : JSVal) : Option ℚ := parseFloatStr (jsToString v)

/-! ## parseIndianNumber (data-transformer.js)

The currency normalizer. JS numbers are modelled as exact rationals, so
the final Number.isFinite guard of the source is always on its finite
branch. -/

/-- Characters removed by the replace chain of parseIndianNumber: the
rupee glyph, the class [    ​\s], and commas. -/
def isIndianStripChar (c : Char) : Bool :=
  let n := c.toNat
  n == 0x20b9 ||
  (n == 0xa0 || n == 0x202f || n == 0x2009 || n == 0x200a || n == 0x200b) ||
  isJsSpace c ||
  n == 44

/-- The cleaned character list of parseIndianNumber after the replace
chain. -/
def cleanIndian (s : String) : List Char :=
  s.data.filter (fun c => !isIndianStripChar c)

/-- The first match of the regex ([0-9]+(?:\.[0-9]+)?): the matched run
and the remaining suffix after the match, or none when no digit occurs. -/
def firstNumericRun (l : List Char) : Option (List Char × List Char) :=
  let rest := l.dropWhile (fun c => !isDig c)
  if rest.isEmpty then none
  else
    let ds := rest.takeWhile isDig
    let r2 := rest.dropWhile isDig
    match r2 with
    | '.' :: r3 =>
      let fs := r3.takeWhile isDig
      if fs.isEmpty then some (ds, r2)
      else some (ds ++ '.' :: fs, r3.drop fs.length)
    | _ => some (ds, r2)

/-- JS parseFloat restricted to a matched numeric run digits[.digits]. -/
def parseFloatRun (run : List Char) : ℚ :=
  let ds := run.takeWhile isDig
  match run.dropWhile isDig with
  | '.' :: fs =>
    (natOfDigits ds : ℚ) +
      (natOfDigits (fs.takeWhile isDig) : ℚ) / 10 ^ (fs.takeWhile isDig).length
  | _ => (natOfDigits ds : ℚ)

/-- Alternatives of the crore-suffix regex (cr|crore|crores). -/
def crAlts : List (List Char) := ["cr".data, "crore".data, "crores".data]

/-- Alternatives of the lakh-suffix regex (lac|lakh|lakhs). -/
def lacAlts : List (List Char) := ["lac".data, "lakh".data, "lakhs".data]

def isIndianSentinel (s : String) : Prop :=
  s = "" ∨ s = "-" ∨ s = "N/A" ∨ s = "null" ∨ s = "undefined" ∨ s = "--"

instance (s : String) : Decidable (isIndianSentinel s) := by
  unfold isIndianSentinel
  infer_instance

/-- The string pipeline of parseIndianNumber, from let s = str.toString().trim()
onward. -/
def parseIndianStr (str : String) : ℚ :=
  let s := jsTrim str
  if isIndianSentinel s then 0
  else
    match firstNumericRun (cleanIndian s) with
    | none => 0
    | some (run, suffix) =>
      let num := parseFloatRun run
      let suf := suffix.map Char.toLower
      if regexTestAny crAlts suf then num * 10000000
      else if regexTestAny lacAlts suf then num * 100000
      else num

/-- parseIndianNumber from data-transformer.js: null and undefined return
0 before stringification; every other value is stringified and run
through the pipeline. -/
def parseIndianNumber (v : JSVal) : ℚ :=
  match v with
  | .vNull => 0
  | .vUndef => 0
  | _ => parseIndianStr (jsToString v)

/-! ## parseDate, cleanText, normalizeConstituency (data-transformer.js) -/

/-- Three-letter month table of parseDate (plus the sept variant). -/
def monthTable (token : String) : Option String :=
  if token = "jan" then some "01" else if token = "feb" then some "02"
  else if token = "mar" then some "03" else if token = "apr" then some "04"
  else if token = "may" then some "05" else if token = "jun" then some "06"
  else if token = "jul" then some "07" else if token = "aug" then some "08"
  else if token = "sep" then some "09" else if token = "sept" then some "09"
  else if token = "oct" then some "10" else if token = "nov" then some "11"
  else if token = "dec" then some "12" else none

/-- Model of JS String.prototype.padStart with the pad character given. -/
def padStartStr (s : String) (n : ℕ) (c : Char) : String :=
  String.mk (List.replicate (n - s.data.length) c ++ s.data)

/-- Days of a Gregorian month, for validating a constructed date the way
new Date("YYYY-MM-DD") does. -/
def daysInMonth (year month : ℕ) : ℕ :=
  if month = 2 then
    if year % 4 = 0 ∧ (year % 100 ≠ 0 ∨ year % 400 = 0) then 29 else 28
  else if month = 4 ∨ month = 6 ∨ month = 9 ∨ month = 11 then 30
  else 31

/-- Validity of the ISO string YYYY-MM-DD the way new Date accepts it:
four year digits, the table month, and a two-digit day in range. -/
def isoTriadValid (year month day : String) : Bool :=
  year.data.length == 4 && year.data.all isDig &&
  day.data.length == 2 && day.data.all isDig &&
  decide (1 ≤ natOfDigits day.data) &&
  decide (natOfDigits day.data ≤ daysInMonth (natOfDigits year.data) (natOfDigits month.data))

/-- Generic fallback parse of parseDate for hyphen-free inputs: models the
common YYYY/MM/DD shape accepted by new Date; the rest of the
implementation-defined JS date grammar is out of the embedded scope and
yields the same unparseable sentinel. -/
def genericIsoParse (s : String) : Option String :=
  match splitOnStr s '/' with
  | [y, mo, d] =>
    let mo2 := padStartStr mo 2 '0'
    let d2 := padStartStr d 2 '0'
    if isoTriadValid y mo2 d2 &&
        decide (1 ≤ natOfDigits mo2.data) && decide (natOfDigits mo2.data ≤ 12) then
      some (y ++ "-" ++ mo2 ++ "-" ++ d2)
    else none
  | _ => none

/-- parseDate from data-transformer.js: DD-MMM-YYYY to YYYY-MM-DD via the
month table, with new Date validation; hyphen-free inputs fall back to
the generic parse; unparseable inputs return the null sentinel. -/
def parseDate (v : JSVal) : Option String :=
  if !v.truthy ∨ v = .vStr "N/A" ∨ jsTrim (jsToString v) = "" then none
  else
    let cleanDateStr := jsTrim (jsToString v)
    if strIncludes cleanDateStr "-" then
      match splitOnStr cleanDateStr '-' with
      | [p0, p1, p2] =>
        let day := padStartStr p0 2 '0'
        let monthToken := lowerStr (String.mk (p1.data.take 4))
        match monthTable monthToken with
        | none => none
        | some month =>
          if p2 = "" ∨ parseIntStr day = none then none
          else if isoTriadValid p2 month day then some (p2 ++ "-" ++ month ++ "-" ++ day)
          else none
      | _ => none
    else genericIsoParse cleanDateStr

theorem dropWhileLenLe {α : Type} (p : α → Bool) (l : List α) :
    (l.dropWhile p).length ≤ l.length := by
  induction l with
  | nil => simp [List.dropWhile]
  | cons a as ih =>
    simp only [List.dropWhile]
    split
    · exact Nat.le_trans ih (Nat.le_succ _)
    · simp

/-- Collapse each run of three or more question marks to nothing, the
replace of cleanText for /\?{3,}/g (shorter runs are kept). -/
def stripQMarks (l : List Char) : List Char :=
  match l with
  | [] => []
  | c :: rest =>
    if c = '?' then
      let runTail := rest.takeWhile (fun x => x == '?')
      let rest2 := rest.dropWhile (fun x => x == '?')
      (if 3 ≤ runTail.length + 1 then [] else '?' :: runTail) ++ stripQMarks rest2
    else c :: stripQMarks rest
termination_by l.length
decreasing_by
  · have h2 : (rest.dropWhile (fun x => x == '?')).length ≤ rest.length :=
      dropWhileLenLe (fun x => x == '?') rest
    simp only [List.length_cons]
    omega
  · simp only [List.length_cons]
    omega

/-- cleanText from data-transformer.js. -/
def cleanText (v : JSVal) : String :=
  if !v.truthy then ""
  else jsTrim (String.mk (stripQMarks (jsToString v).data))

/-- Uppercase A to Z, the regex class [A-Z]. -/
def isUpperAZ (c : Char) : Bool := decide ('A' ≤ c) && decide (c ≤ 'Z')

/-- Strip a trailing state-code suffix matching _[A-Z]{2,3}$ from a
character list. -/
def dropStateCode (l : List Char) : List Char :=
  let rev := l.reverse
  let us := rev.takeWhile isUpperAZ
  if (us.length = 2 ∨ us.length = 3) ∧ (rev.drop us.length).head? = some '_' then
    ((rev.drop us.length).drop 1).reverse
  else l

/-- Lowered reservation tokens accepted inside trailing parentheses:
alternation (SC|ST|GEN|S\.?C\.?|S\.?T\.?), case-insensitive. -/
def parenTokens : List String :=
  ["sc", "st", "gen", "s.c", "sc.", "s.c.", "s.t", "st.", "s.t."]

/-- Strip a trailing parenthesised reservation qualifier matching
\s*\((SC|ST|GEN|S\.?C\.?|S\.?T\.?)\)\s*$ (case-insensitive). -/
def dropParenQualifier (l : List Char) : List Char :=
  let rev := (l.reverse).dropWhile isJsSpace
  match rev with
  | ')' :: r1 =>
    let tokRev := r1.takeWhile (fun c => !(c == '('))
    match r1.dropWhile (fun c => !(c == '(')) with
    | '(' :: r2 =>
      if parenTokens.contains (lowerStr (String.mk tokRev.reverse)) then
        (r2.dropWhile isJsSpace).reverse
      else l
    | _ => l
  | _ => l

/-- Strip a trailing dash reservation qualifier matching
\s*[-–]\s*(SC|ST|GEN)\s*$ (case-insensitive). -/
def dropDashQualifier (l : List Char) : List Char :=
  let rev := (l.reverse).dropWhile isJsSpace
  let tokRev := rev.takeWhile (fun c => !(c == '-' || c == '–') && !isJsSpace c)
  if ["sc", "st", "gen"].contains (lowerStr (String.mk tokRev.reverse)) then
    match (rev.drop tokRev.length).dropWhile isJsSpace with
    | d :: r2 =>
      if d == '-' || d == '–' then (r2.dropWhile isJsSpace).reverse else l
    | _ => l
  else l

/-- Collapse every whitespace run to one space, the replace for \s+. -/
def collapseWS (l : List Char) : List Char :=
  match l with
  | [] => []
  | c :: rest =>
    if isJsSpace c then
      ' ' :: collapseWS (rest.dropWhile isJsSpace)
    else c :: collapseWS rest
termination_by l.length
decreasing_by
  · have h2 : (rest.dropWhile isJsSpace).length ≤ rest.length :=
      dropWhileLenLe isJsSpace rest
    simp only [List.length_cons]
    omega
  · simp only [List.length_cons]
    omega

/-- normalizeConstituency from data-transformer.js. -/
def normalizeConstituency (v : JSVal) : String :=
  if !v.truthy then ""
  else
    let c0 := (jsTrim (jsToString v)).data
    let c1 := dropStateCode c0
    let c2 := dropParenQualifier c1
    let c3 := dropDashQualifier c2
    jsTrim (String.mk (collapseWS c3))

/-! ## Record transformer (data-transformer.js)

Raw report rows are untyped field maps; the fields the transformer reads
are embedded as JS values. -/

structure RawRecord where
  Sno : JSVal := .vUndef
  STATE_NAME : JSVal := .vUndef
  MP_NAME : JSVal := .vUndef
  CONSTITUENCY : JSVal := .vUndef
  WORK_CATEGORY : JSVal := .vUndef
  WORK_RECOMMENDATION_DTL_ID : JSVal := .vUndef
  IDA_NAME : JSVal := .vUndef
  IA_NAME : JSVal := .vUndef
  WORK_DESCRIPTION : JSVal := .vUndef
  ACTIVITY_NAME : JSVal := .vUndef
  ACTUAL_END_DATE : JSVal := .vUndef
  ACTUAL_AMOUNT : JSVal := .vUndef
  FILE_STATUS : JSVal := .vUndef
  AVERAGE_RATING : JSVal := .vUndef
  RECOMMENDATION_DATE : JSVal := .vUndef
  RECOMMENDED_AMOUNT : JSVal := .vUndef
  ALLOCATED_AMT : JSVal := .vUndef
  VENDOR_NAME : JSVal := .vUndef
  EXPENDITURE_DATE : JSVal := .vUndef
  WORK_STATUS : JSVal := .vUndef
  PAYMENT_STATUS : JSVal := .vUndef
  FUND_DISBURSED_AMT : JSVal := .vUndef
  EXPENDITURE_AMOUNT : JSVal := .vUndef
deriving DecidableEq

/-- Map with the element position, as Array.prototype.map exposes it. -/
def mapWithIndexAux {α β : Type} (f : ℕ → α → β) : ℕ → List α → List β
  | _, [] => []
  | i, a :: as => f i a :: mapWithIndexAux f (i + 1) as

/-- Map with 0-based index over a list. -/
def mapWithIndex {α β : Type} (f : ℕ → α → β) (l : List α) : List β :=
  mapWithIndexAux f 0 l

/-- The shared row filter: state and MP name nonempty after trim, longer
than one character, and neither containing total case-insensitively. -/
def validBaseRecord (r : RawRecord) : Bool :=
  let stateName := jsTrim (jsToString (jsOr r.STATE_NAME (.vStr "")))
  let mpName := jsTrim (jsToString (jsOr r.MP_NAME (.vStr "")))
  !(stateName == "") && !(mpName == "") &&
  decide (1 < stateName.data.length) && decide (1 < mpName.data.length) &&
  !(strIncludes (lowerStr stateName) "total") &&
  !(strIncludes (lowerStr mpName) "total")

/-- An allocation record as produced by transformAllocatedLimit. -/
structure AllocationRecord where
  srNo : JSVal
  state : JSVal
  mpName : JSVal
  constituency : String
  allocatedAmount : ℚ
  house : String
  lsTerm : Option String
deriving DecidableEq

/-- transformAllocatedLimit from data-transformer.js. -/
def transformAllocatedLimit (apiData : List RawRecord) (house : String)
    (lsTerm : Option String) : List AllocationRecord :=
  mapWithIndex
    (fun index r =>
      { srNo := jsOr r.Sno (.vNum (index + 1))
        state := r.STATE_NAME
        mpName := r.MP_NAME
        constituency := normalizeConstituency r.CONSTITUENCY
        allocatedAmount := parseIndianNumber r.ALLOCATED_AMT
        house := house
        lsTerm := if house = "Lok Sabha" then lsTerm else none })
    (apiData.filter validBaseRecord)

/-- An expenditure record as produced by transformExpenditure. -/
structure ExpenditureRecord where
  srNo : JSVal
  state : JSVal
  workId : ℤ
  work : String
  vendor : Option JSVal
  ida : JSVal
  mpName : JSVal
  expenditureDate : Option String
  paymentStatus : JSVal
  constituency : String
  expenditureAmount : ℚ
  house : String
  lsTerm : Option String
deriving DecidableEq

/-- transformExpenditure from data-transformer.js. -/
def transformExpenditure (apiData : List RawRecord) (house : String)
    (lsTerm : Option String) : List ExpenditureRecord :=
  mapWithIndex
    (fun index r =>
      { srNo := jsOr r.Sno (.vNum (index + 1))
        state := r.STATE_NAME
        workId := intOrZero (jsParseInt r.WORK_RECOMMENDATION_DTL_ID)
        work := cleanText r.ACTIVITY_NAME
        vendor := if r.VENDOR_NAME.truthy then some r.VENDOR_NAME else none
        ida := jsOr r.IDA_NAME r.IA_NAME
        mpName := r.MP_NAME
        expenditureDate := parseDate r.EXPENDITURE_DATE
        paymentStatus := jsOr r.WORK_STATUS (jsOr r.PAYMENT_STATUS (.vStr "N/A"))
        constituency := normalizeConstituency r.CONSTITUENCY
        expenditureAmount := parseIndianNumber (jsOr r.FUND_DISBURSED_AMT r.EXPENDITURE_AMOUNT)
        house := house
        lsTerm := if house = "Lok Sabha" then lsTerm else none })
    (apiData.filter validBaseRecord)

/-- A completed-work record as produced by transformWorksCompleted. -/
structure CompletedWorkRecord where
  srNo : JSVal
  workCategory : JSVal
  workId : ℤ
  state : JSVal
  ida : JSVal
  workDescription : String
  mpName : JSVal
  constituency : String
  completedDate : Option String
  hasImage : Bool
  averageRating : Option ℚ
  finalAmount : ℚ
  house : String
  lsTerm : Option String
deriving DecidableEq

/-- The workDescription fallback chain of the transformer:
cleanText(WORK_DESCRIPTION) || cleanText(ACTIVITY_NAME) || default. -/
def descriptionOf (r : RawRecord) : String :=
  let d1 := cleanText r.WORK_DESCRIPTION
  let d2 := cleanText r.ACTIVITY_NAME
  if d1 ≠ "" then d1 else if d2 ≠ "" then d2 else "No description available"

/-- The FILE_STATUS === true || FILE_STATUS === true-string check. -/
def hasImageOf (r : RawRecord) : Bool :=
  r.FILE_STATUS == .vBool true || r.FILE_STATUS == .vStr "true"

/-- The AVERAGE_RATING mapping: strict-unequal to the N/A string and to
null means parseFloat, else null; none also covers a NaN parse. -/
def averageRatingOf (r : RawRecord) : Option ℚ :=
  if r.AVERAGE_RATING ≠ .vStr "N/A" ∧ r.AVERAGE_RATING ≠ .vNull then
    jsParseFloat r.AVERAGE_RATING
  else none

/-- Row filter of transformWorksCompleted: the shared filter, completion
date and amount present, and a positive parsed work id. -/
def completedKeep (r : RawRecord) : Bool :=
  validBaseRecord r &&
  r.ACTUAL_END_DATE.truthy && r.ACTUAL_AMOUNT.truthy &&
  (match jsParseInt r.WORK_RECOMMENDATION_DTL_ID with
   | some n => !(n == 0) && decide (0 < n)
   | none => false)

/-- transformWorksCompleted from data-transformer.js. -/
def transformWorksCompleted (apiData : List RawRecord) (house : String)
    (lsTerm : Option String) : List CompletedWorkRecord :=
  mapWithIndex
    (fun index r =>
      { srNo := jsOr r.Sno (.vNum (index + 1))
        workCategory := r.WORK_CATEGORY
        workId := intOrZero (jsParseInt r.WORK_RECOMMENDATION_DTL_ID)
        state := r.STATE_NAME
        ida := r.IDA_NAME
        workDescription := descriptionOf r
        mpName := r.MP_NAME
        constituency := normalizeConstituency r.CONSTITUENCY
        completedDate := parseDate r.ACTUAL_END_DATE
        hasImage := hasImageOf r
        averageRating := averageRatingOf r
        finalAmount := parseIndianNumber r.ACTUAL_AMOUNT
        house := house
        lsTerm := if house = "Lok Sabha" then lsTerm else none })
    (apiData.filter completedKeep)

/-- A recommended-work record as produced by transformWorksRecommended. -/
structure RecommendedWorkRecord where
  srNo : JSVal
  workCategory : JSVal
  workId : ℤ
  state : JSVal
  ida : JSVal
  mpName : JSVal
  workDescription : String
  recommendationDate : Option String
  constituency : String
  hasImage : Bool
  recommendedAmount : ℚ
  house : String
  lsTerm : Option String
deriving DecidableEq

/-- Row filter of transformWorksRecommended: the shared filter, then skip
ids already in the completed set, then require a positive id and
recommendation data. -/
def recommendedKeep (completedWorkIds : List ℤ) (r : RawRecord) : Bool :=
  validBaseRecord r &&
  (let recId := intOrNull (jsParseInt r.WORK_RECOMMENDATION_DTL_ID)
   (match recId with
    | some n => !(completedWorkIds.contains n)
    | none => true) &&
   (match recId with
    | some n => decide (0 < n)
    | none => false)) &&
  r.RECOMMENDATION_DATE.truthy && r.RECOMMENDED_AMOUNT.truthy

/-- transformWorksRecommended from data-transformer.js: the
completedWorkIds argument models the JS Set handed in by
transformAllData. -/
def transformWorksRecommended (apiData : List RawRecord) (house : String)
    (lsTerm : Option String) (completedWorkIds : List ℤ) : List RecommendedWorkRecord :=
  mapWithIndex
    (fun index r =>
      { srNo := jsOr r.Sno (.vNum (index + 1))
        workCategory := r.WORK_CATEGORY
        workId := intOrZero (jsParseInt r.WORK_RECOMMENDATION_DTL_ID)
        state := r.STATE_NAME
        ida := r.IDA_NAME
        mpName := r.MP_NAME
        workDescription := descriptionOf r
        recommendationDate := parseDate r.RECOMMENDATION_DATE
        constituency := normalizeConstituency r.CONSTITUENCY
        hasImage := hasImageOf r
        recommendedAmount := parseIndianNumber r.RECOMMENDED_AMOUNT
        house := house
        lsTerm := if house = "Lok Sabha" then lsTerm else none })
    (apiData.filter (recommendedKeep completedWorkIds))

/-- One report bundle of raw rows for a house, the shape fetched per
house by the API client. -/
structure HouseBundle where
  works_completed : List RawRecord
  works_recommended : List RawRecord
  expenditure : List RawRecord
  allocated_limit : List RawRecord

/-- The apiData argument of transformAllData. -/
structure ApiData where
  lok_sabha : HouseBundle
  rajya_sabha : HouseBundle

/-- Transformed output for one house. -/
structure TransformedHouse where
  allocated_limit : List AllocationRecord
  expenditure : List ExpenditureRecord
  works_completed : List CompletedWorkRecord
  works_recommended : List RecommendedWorkRecord

/-- Transformed output of transformAllData. -/
structure TransformedData where
  lok_sabha : TransformedHouse
  rajya_sabha : TransformedHouse

/-- The completed-id set built by transformAllData:
map(w => w.workId).filter(Boolean). -/
def completedIdSet (l : List CompletedWorkRecord) : List ℤ :=
  (l.map (fun w => w.workId)).filter (fun n => !(n == 0))

/-- transformAllData from data-transformer.js: completed works are
transformed first for each house and their id set is passed into the
recommended transformation of the same house. -/
def transformAllData (apiData : ApiData) (lsTerm : Option String) : TransformedData :=
  let lsCompleted := transformWorksCompleted apiData.lok_sabha.works_completed "Lok Sabha" lsTerm
  let rsCompleted := transformWorksCompleted apiData.rajya_sabha.works_completed "Rajya Sabha" none
  { lok_sabha :=
      { allocated_limit := transformAllocatedLimit apiData.lok_sabha.allocated_limit "Lok Sabha" lsTerm
        expenditure := transformExpenditure apiData.lok_sabha.expenditure "Lok Sabha" lsTerm
        works_completed := lsCompleted
        works_recommended :=
          transformWorksRecommended apiData.lok_sabha.works_recommended "Lok Sabha" lsTerm
            (completedIdSet lsCompleted) }
    rajya_sabha :=
      { allocated_limit := transformAllocatedLimit apiData.rajya_sabha.allocated_limit "Rajya Sabha" none
        expenditure := transformExpenditure apiData.rajya_sabha.expenditure "Rajya Sabha" none
        works_completed := rsCompleted
        works_recommended :=
          transformWorksRecommended apiData.rajya_sabha.works_recommended "Rajya Sabha" none
            (completedIdSet rsCompleted) } }

/-! ## Session bootstrap (mplads-api client, initializeSession)

The HTTPS exchange is modelled as a scenario value: the response with its
set-cookie headers, a request error, or the 30 second timer firing. The
promise only ever resolves with a boolean; the outcome type still has a
raised alternative so that claims about thrown errors are statable. -/

/-- The timeout installed on the bootstrap request, in milliseconds. -/
def sessionInitTimeoutMs : ℕ := 30000

/-- What the portal does to the bootstrap request. -/
inductive PortalEvent where
  | response (setCookie : Option (List String))
  | netError
  | timeoutFired
deriving DecidableEq

/-- Outcome of an async JS operation: a resolved value or a raised error
identified by name. -/
inductive SessionOutcome where
  | result (b : Bool)
  | raised (errName : String)
deriving DecidableEq

/-- The cookie join of initializeSession: first part of each set-cookie
header before any semicolon, kept when it contains an equals sign,
joined by semicolon-space. -/
def joinCookies (headers : List String) : String :=
  String.intercalate "; "
    ((headers.map (fun c => ((splitOnStr c ';').headD ""))).filter
      (fun c => strIncludes c "="))

/-- initializeSession: resolves with the testSession result when cookies
arrive, and resolves false (never raises) when the response carries no
set-cookie headers, no valid cookie pair, on a request error, or when the
30 second timer fires. -/
def initializeSession (ev : PortalEvent) (testSessionOk : Bool) : SessionOutcome :=
  match ev with
  | .response none => .result false
  | .response (some headers) =>
    if headers.length = 0 then .result false
    else
      let cookies := joinCookies headers
      if cookies = "" then .result false
      else .result testSessionOk
  | .netError => .result false
  | .timeoutFired => .result false

/-! ## Report fetch combo mapping (mplads-api client, fetchData) -/

/-- The combo parameter chosen by fetchData, URL-encoded as in the
source. -/
def houseCombo (house : String) (lsTerm : String) : String :=
  if house = "lok_sabha" then
    if lowerStr lsTerm = "17" then "0%2C0%2C0%2C2%2C5"
    else "0%2C0%2C0%2C2"
  else "0%2C0%2C0%2C1"

/-- The dataTypeMap of fetchData: report kind to URL-encoded upstream
key. -/
def dataTypeMap (dataType : String) : Option String :=
  if dataType = "works_completed" then some "Total%20Works%20Completed"
  else if dataType = "works_recommended" then some "Total%20Works%20Recommended"
  else if dataType = "expenditure" then some "Total%20Expenditure"
  else if dataType = "allocated_limit" then some "Allocated%20Limit"
  else none

/-- The POST body built by fetchData; none models the rejection for an
invalid data type. -/
def buildPostData (house dataType lsTerm : String) : Option String :=
  (dataTypeMap dataType).map
    (fun keyParam => "combo=" ++ houseCombo house lsTerm ++ "&key=" ++ keyParam)

/-- Decode the URL escape %2C back to a comma (the only escape occurring
in combo codes). -/
def decodeCommas (l : List Char) : List Char :=
  match l with
  | '%' :: '2' :: 'C' :: rest => ',' :: decodeCommas rest
  | c :: rest => c :: decodeCommas rest
  | [] => []

/-- String form of decodeCommas. -/
def decodeCommasStr (s : String) : String := String.mk (decodeCommas s.data)

/-! ## Sync metadata (metadata-manager.js, calculateNextUpdate)

A JS Date is modelled as a local day number plus milliseconds of day;
setDate arithmetic on a day-of-month rolls over exactly like adding days,
and getDay of day number n is (n + 4) mod 7 since day 0 of the epoch was
a Thursday. -/

structure JsDateTime where
  days : ℕ
  msOfDay : ℕ
deriving DecidableEq

/-- Model of Date.prototype.getDay: 0 Sunday through 6 Saturday. -/
def dayOfWeek (d : JsDateTime) : ℕ := (d.days + 4) % 7

/-- The 02:00:00.000 time of day set by setHours(2, 0, 0, 0). -/
def twoAMms : ℕ := 2 * 60 * 60 * 1000

/-- calculateNextUpdate from metadata-manager.js. -/
def calculateNextUpdate (frequency : String) (now : JsDateTime) : JsDateTime :=
  let freq := lowerStr frequency
  if freq = "daily" then { days := now.days + 1, msOfDay := twoAMms }
  else if freq = "weekly" then
    let daysUntilMonday0 := (7 - dayOfWeek now + 1) % 7
    let daysUntilMonday := if daysUntilMonday0 = 0 then 7 else daysUntilMonday0
    { days := now.days + daysUntilMonday, msOfDay := twoAMms }
  else if freq = "bi-weekly" then { days := now.days + 14, msOfDay := twoAMms }
  else { days := now.days + 1, msOfDay := twoAMms }

/-! ## Image extractor (mplads-image-extractor/src/mplads-api.js) -/

/-- An axios error as the retry logic inspects it: an optional low-level
code, an optional HTTP response status, and an optional message. -/
structure JsError where
  code : Option String := none
  status : Option ℕ := none
  message : Option String := none
deriving DecidableEq

/-- RETRY_CONFIG.maxRetries. -/
def retryMaxRetries : ℕ := 3

/-- RETRY_CONFIG.baseDelay in milliseconds. -/
def retryBaseDelay : ℚ := 2000

/-- RETRY_CONFIG.maxDelay in milliseconds. -/
def retryMaxDelay : ℚ := 10000

/-- RETRY_CONFIG.retryableErrors. -/
def retryableErrorCodes : List String :=
  ["ECONNRESET", "ETIMEDOUT", "ENOTFOUND", "ECONNREFUSED", "EAI_AGAIN"]

/-- isRetryableError from mplads-api.js; the argument is optional to keep
the null guard of the source. -/
def isRetryableError (e : Option JsError) : Bool :=
  match e with
  | none => false
  | some err =>
    (match err.code with
     | some c => retryableErrorCodes.contains c
     | none => false) ||
    (match err.status with
     | some st => decide (500 ≤ st)
     | none => false) ||
    (match err.status with
     | some st => st == 429
     | none => false) ||
    (match err.message with
     | some m => strIncludes m "timeout"
     | none => false) ||
    (match err.message with
     | some m => strIncludes m "ECONNRESET"
     | none => false)

/-- calculateDelay from mplads-api.js; rand stands for the Math.random
draw in [0, 1). -/
def calculateDelay (attempt : ℕ) (rand : ℚ) : ℚ :=
  let exponentialDelay := retryBaseDelay * 2 ^ (attempt - 1)
  let jitter := rand * (1 / 10) * exponentialDelay
  min (exponentialDelay + jitter) retryMaxDelay

/-- Response body shapes of the attachment-bytes endpoint as
downloadImageData distinguishes them: a direct base64 string, an array
whose first element carries a truthy URL field of base64, or anything
else. -/
inductive RespData where
  | strData (s : String)
  | arrURL (url : String)
  | badShape
deriving DecidableEq

/-- The invalid-shape error thrown inside the download try block. -/
def invalidFormatError : JsError :=
  { message := some "Invalid response format - expected base64 string or array with URL field" }

/-- One download attempt given the request outcome: a request error
propagates, a good body yields its base64 payload, a bad shape throws the
format error. Base64 byte decoding is a platform builtin outside the
embedding; the payload string stands for the downloaded bytes. -/
def downloadStep (o : Except JsError RespData) : Except JsError String :=
  match o with
  | .error e => .error e
  | .ok (.strData s) => .ok s
  | .ok (.arrURL u) => .ok u
  | .ok .badShape => .error invalidFormatError

/-- The retry loop of downloadImageData. attempt is the 1-based loop
counter, remaining the attempts left including the current one; the
returned list holds the backoff delays actually slept. -/
def goDownload (outcomes : ℕ → Except JsError RespData) (rand : ℕ → ℚ) :
    ℕ → ℕ → Option JsError → List ℚ → Except JsError String × List ℚ
  | _, 0, lastErr, delays => (.error (lastErr.getD invalidFormatError), delays)
  | attempt, remaining + 1, _, delays =>
    match downloadStep (outcomes attempt) with
    | .ok s => (.ok s, delays)
    | .error e =>
      if !isRetryableError (some e) then (.error e, delays)
      else if remaining = 0 then (.error e, delays)
      else
        goDownload outcomes rand (attempt + 1) remaining (some e)
          (delays ++ [calculateDelay attempt (rand attempt)])

/-- downloadImageData from mplads-api.js, as a function of the outcome of
each network attempt and of the Math.random draws. -/
def downloadImageData (outcomes : ℕ → Except JsError RespData) (rand : ℕ → ℚ) :
    Except JsError String × List ℚ :=
  goDownload outcomes rand 1 retryMaxRetries none []

/-- FILE_NAME field values of the attachment-id endpoint. -/
inductive FileNameVal where
  | fnStr (s : String)
  | fnArr (l : List String)
deriving DecidableEq

/-- ATTACH_ID field values of the attachment-id endpoint. -/
inductive AttachIdVal where
  | aiStr (s : String)
  | aiArr (l : List String)
deriving DecidableEq

/-- One element of the attachment-id response array. -/
structure AttachRecord where
  FILE_NAME : FileNameVal
  ATTACH_ID : AttachIdVal
deriving DecidableEq

/-- The attachment-id response body: an array of records or some
non-array shape. -/
inductive AttachPayload where
  | arr (l : List AttachRecord)
  | nonArray
deriving DecidableEq

/-- One attachment descriptor as getAttachmentIds returns it; the
attachment id is optional because the zip reads the id array by index. -/
structure AttachmentOut where
  fileName : FileNameVal
  attachmentId : Option AttachIdVal
deriving DecidableEq

/-- getAttachmentIds from mplads-api.js, as a function of the request
outcome for the given work id and phase flag: an HTTP 404 is a normal
empty result, any other error propagates. -/
def getAttachmentIds (workId : String) (flag : ℕ)
    (resp : Except JsError AttachPayload) : Except JsError (List AttachmentOut) :=
  match resp with
  | .ok (.arr (first :: _)) =>
    if first.FILE_NAME ≠ .fnStr "N/A" then
      match first.FILE_NAME, first.ATTACH_ID with
      | .fnArr fs, .aiArr ids =>
        .ok (mapWithIndex
          (fun index f => { fileName := .fnStr f, attachmentId := (ids.get? index).map .aiStr })
          fs)
      | fn, ai => .ok [{ fileName := fn, attachmentId := some ai }]
    else .ok []
  | .ok _ => .ok []
  | .error e => if e.status = some 404 then .ok [] else .error e

/-! ## Object storage (r2-client.js) -/

/-- The file extension derivation of uploadImageToR2:
fileName.split(dot).pop() with jpg as the empty fallback. -/
def fileExtOf (fileName : String) : String :=
  let last := (splitOnStr fileName '.').getLastD ""
  if last = "" then "jpg" else last

/-- The object key written by uploadImageToR2. -/
def uploadKey (workId phase attachmentId fileName : String) : String :=
  "works/" ++ workId ++ "/" ++ phase ++ "/" ++ attachmentId ++ "_original." ++ fileExtOf fileName

/-- The object key probed by imageExistsInR2 (extension hard-coded to
jpg). -/
def existsKey (workId phase attachmentId : String) : String :=
  "works/" ++ workId ++ "/" ++ phase ++ "/" ++ attachmentId ++ "_original.jpg"

/-- The result object returned by uploadImageToR2. -/
structure UploadResult where
  r2Key : String
  r2Url : String
  size : ℕ
deriving DecidableEq

/-- uploadImageToR2: puts the object under its key in the bucket (the
bucket is the list of stored keys) and returns key, public URL and size.
publicDomain comes from the environment configuration. -/
def uploadImageToR2 (bucket : List String) (publicDomain : String)
    (workId phase attachmentId : String) (imageBufferLen : ℕ) (fileName : String) :
    List String × UploadResult :=
  let r2Key := uploadKey workId phase attachmentId fileName
  (r2Key :: bucket,
   { r2Key := r2Key
     r2Url := "https://" ++ publicDomain ++ "/" ++ r2Key
     size := imageBufferLen })

/-- imageExistsInR2: head-probe of the jpg key; a missing object is a
normal false. -/
def imageExistsInR2 (bucket : List String) (workId phase attachmentId : String) : Bool :=
  bucket.contains (existsKey workId phase attachmentId)

/-! ## Supporting lemmas about the string pipeline -/

theorem dropWhile_all_false {α : Type} (p : α → Bool) (l : List α)
    (h : ∀ c ∈ l, p c = false) : l.dropWhile p = l := by
  cases l with
  | nil => simp [List.dropWhile]
  | cons a as =>
    simp only [List.dropWhile]
    rw [h a (List.mem_cons_self a as)]

theorem dropWhile_all_true {α : Type} (p : α → Bool) (l : List α)
    (h : ∀ c ∈ l, p c = true) : l.dropWhile p = [] := by
  induction l with
  | nil => simp [List.dropWhile]
  | cons a as ih =>
    simp only [List.dropWhile]
    rw [h a (List.mem_cons_self a as)]
    exact ih (fun c hc => h c (List.mem_cons_of_mem a hc))

theorem takeWhile_all_true {α : Type} (p : α → Bool) (l : List α)
    (h : ∀ c ∈ l, p c = true) : l.takeWhile p = l := by
  induction l with
  | nil => simp [List.takeWhile]
  | cons a as ih =>
    simp only [List.takeWhile]
    rw [h a (List.mem_cons_self a as)]
    simp [ih (fun c hc => h c (List.mem_cons_of_mem a hc))]

theorem takeWhile_append_all_true {α : Type} (p : α → Bool) (l r : List α)
    (h : ∀ c ∈ l, p c = true) : (l ++ r).takeWhile p = l ++ r.takeWhile p := by
  induction l with
  | nil => simp
  | cons a as ih =>
    simp only [List.cons_append, List.takeWhile]
    rw [h a (List.mem_cons_self a as)]
    simp [ih (fun c hc => h c (List.mem_cons_of_mem a hc))]

theorem dropWhile_append_all_true {α : Type} (p : α → Bool) (l r : List α)
    (h : ∀ c ∈ l, p c = true) : (l ++ r).dropWhile p = r.dropWhile p := by
  induction l with
  | nil => simp
  | cons a as ih =>
    simp only [List.cons_append, List.dropWhile]
    rw [h a (List.mem_cons_self a as)]
    exact ih (fun c hc => h c (List.mem_cons_of_mem a hc))

theorem filter_all_true {α : Type} (p : α → Bool) (l : List α)
    (h : ∀ c ∈ l, p c = true) : l.filter p = l := by
  induction l with
  | nil => simp
  | cons a as ih =>
    simp only [List.filter]
    rw [h a (List.mem_cons_self a as)]
    simp [ih (fun c hc => h c (List.mem_cons_of_mem a hc))]

theorem isJsSpace_false_of_isDig (c : Char) (h : isDig c = true) :
    isJsSpace c = false := by
  simp only [isDig, Bool.and_eq_true, decide_eq_true_eq] at h
  rw [Bool.eq_false_iff]
  intro hsp
  simp only [isJsSpace, Bool.or_eq_true, beq_iff_eq, Bool.and_eq_true,
    decide_eq_true_eq] at hsp
  omega

theorem isIndianStripChar_false_of_isDig (c : Char) (h : isDig c = true) :
    isIndianStripChar c = false := by
  have hs := isJsSpace_false_of_isDig c h
  simp only [isDig, Bool.and_eq_true, decide_eq_true_eq] at h
  rw [Bool.eq_false_iff]
  intro hsp
  simp only [isIndianStripChar, hs, Bool.or_eq_true, beq_iff_eq, Bool.or_eq_false_iff,
    Bool.false_eq_true, or_false] at hsp
  omega

theorem isJsSpace_dot_false : isJsSpace '.' = false := by decide

theorem isIndianStripChar_dot_false : isIndianStripChar '.' = false := by decide

theorem isDig_dot_false : isDig '.' = false := by decide

/-- Character lists of the decimal string of m / 10 ^ k contain only
digits and the point. -/
theorem decimalString_chars (m k : ℕ) (c : Char)
    (hc : c ∈ (decimalString m k).data) : isDig c = true ∨ c = '.' := by
  unfold decimalString at hc
  by_cases hk : k = 0
  · simp only [hk, if_true, natToString] at hc
    exact Or.inl (mem_natMSDigits_isDig m c hc)
  · simp only [hk, if_false, List.mem_append, List.mem_cons] at hc
    rcases hc with hc | hc | hc | hc
    · exact Or.inl (mem_natMSDigits_isDig _ c hc)
    · exact Or.inr hc
    · have := List.eq_of_mem_replicate hc
      subst this
      exact Or.inl (by decide)
    · exact Or.inl (mem_natDigitsRev_isDig _ c (List.mem_reverse.mp hc))

/-- jsTrim is the identity on a string with no JS whitespace. -/
theorem jsTrim_no_space (s : String)
    (h : ∀ c ∈ s.data, isJsSpace c = false) : jsTrim s = s := by
  unfold jsTrim trimListWith
  rw [dropWhile_all_false isJsSpace s.data h]
  rw [dropWhile_all_false isJsSpace s.data.reverse (fun c hc => h c (List.mem_reverse.mp hc))]
  simp

/-- cleanIndian is the identity on a string with no stripped character. -/
theorem cleanIndian_no_strip (s : String)
    (h : ∀ c ∈ s.data, isIndianStripChar c = false) : cleanIndian s = s.data := by
  unfold cleanIndian
  exact filter_all_true _ s.data (fun c hc => by rw [h c hc]; rfl)

theorem dropWhile_head_false {α : Type} (p : α → Bool) (a : α) (as : List α)
    (h : p a = false) : (a :: as).dropWhile p = a :: as := by
  simp [List.dropWhile, h]

theorem natMSDigits_ne_nil (n : ℕ) : natMSDigits n ≠ [] := by
  unfold natMSDigits
  split
  · simp
  · rw [natDigitsRev]
    split
    · simp_all
    · simp

theorem natMSDigits_shape (n : ℕ) :
    ∃ a as, natMSDigits n = a :: as ∧ isDig a = true := by
  cases h : natMSDigits n with
  | nil => exact absurd h (natMSDigits_ne_nil n)
  | cons a as =>
    exact ⟨a, as, rfl, mem_natMSDigits_isDig n a (h ▸ List.mem_cons_self a as)⟩

theorem not_sentinel_of_digit_head (s : String) (a : Char) (as : List Char)
    (hdata : s.data = a :: as) (hdig : isDig a = true) : ¬ isIndianSentinel s := by
  intro hs
  rcases hs with rfl | rfl | rfl | rfl | rfl | rfl <;> simp at hdata <;>
    (obtain ⟨ha, _⟩ := hdata
     subst ha
     exact absurd hdig (by decide))

theorem firstNumericRun_digits (I : List Char) (hI : I ≠ [])
    (hall : ∀ c ∈ I, isDig c = true) : firstNumericRun I = some (I, []) := by
  obtain ⟨a, as, rfl⟩ := List.exists_cons_of_ne_nil hI
  have hstop : (a :: as).dropWhile (fun c => !isDig c) = a :: as :=
    dropWhile_head_false _ a as (by rw [hall a (List.mem_cons_self a as)]; rfl)
  have htake : (a :: as).takeWhile isDig = a :: as := takeWhile_all_true _ _ hall
  have hdrop : (a :: as).dropWhile isDig = [] := dropWhile_all_true _ _ hall
  unfold firstNumericRun
  simp only [hstop, htake, hdrop, List.isEmpty_cons, if_false, Bool.false_eq_true]

theorem firstNumericRun_digits_dot (I F : List Char) (hI : I ≠ []) (hF : F ≠ [])
    (hIall : ∀ c ∈ I, isDig c = true) (hFall : ∀ c ∈ F, isDig c = true) :
    firstNumericRun (I ++ '.' :: F) = some (I ++ '.' :: F, []) := by
  obtain ⟨a, as, rfl⟩ := List.exists_cons_of_ne_nil hI
  have hsplit : a :: (as ++ '.' :: F) = (a :: as) ++ '.' :: F := by simp
  have hstop : (a :: (as ++ '.' :: F)).dropWhile (fun c => !isDig c) = a :: (as ++ '.' :: F) :=
    dropWhile_head_false _ a _ (by rw [hIall a (List.mem_cons_self a as)]; rfl)
  have htake : (a :: (as ++ '.' :: F)).takeWhile isDig = a :: as := by
    rw [hsplit, takeWhile_append_all_true isDig _ _ hIall]
    simp [List.takeWhile, isDig_dot_false]
  have hdrop : (a :: (as ++ '.' :: F)).dropWhile isDig = '.' :: F := by
    rw [hsplit, dropWhile_append_all_true isDig _ _ hIall]
    exact dropWhile_head_false _ '.' F isDig_dot_false
  have hFtake : F.takeWhile isDig = F := takeWhile_all_true _ _ hFall
  have hFne : F.isEmpty = false := by
    cases F with
    | nil => exact absurd rfl hF
    | cons f fs => rfl
  unfold firstNumericRun
  simp only [List.cons_append, hstop, htake, hdrop, List.isEmpty_cons, if_false,
    Bool.false_eq_true, hFtake, hFne, List.drop_length]

theorem parseFloatRun_digits (I : List Char)
    (hall : ∀ c ∈ I, isDig c = true) : parseFloatRun I = natOfDigits I := by
  have htake : I.takeWhile isDig = I := takeWhile_all_true _ _ hall
  have hdrop : I.dropWhile isDig = [] := dropWhile_all_true _ _ hall
  unfold parseFloatRun
  simp only [htake, hdrop]

theorem parseFloatRun_digits_dot (I F : List Char)
    (hIall : ∀ c ∈ I, isDig c = true) (hFall : ∀ c ∈ F, isDig c = true) :
    parseFloatRun (I ++ '.' :: F) =
      (natOfDigits I : ℚ) + (natOfDigits F : ℚ) / 10 ^ F.length := by
  have htake : (I ++ '.' :: F).takeWhile isDig = I := by
    rw [takeWhile_append_all_true isDig _ _ hIall]
    simp [List.takeWhile, isDig_dot_false]
  have hdrop : (I ++ '.' :: F).dropWhile isDig = '.' :: F := by
    rw [dropWhile_append_all_true isDig _ _ hIall]
    exact dropWhile_head_false _ '.' F isDig_dot_false
  have hFtake : F.takeWhile isDig = F := takeWhile_all_true _ _ hFall
  unfold parseFloatRun
  simp only [htake, hdrop, hFtake]

theorem regexTestAny_nil_cr : regexTestAny crAlts ([].map Char.toLower) = false := by decide

theorem regexTestAny_nil_lac : regexTestAny lacAlts ([].map Char.toLower) = false := by decide

/-- Reparsing the plain decimal string of m / 10 ^ k recovers exactly
m / 10 ^ k. -/
theorem parseIndianStr_decimalString (m k : ℕ) :
    parseIndianStr (decimalString m k) = (m : ℚ) / 10 ^ k := by
  have hchars := decimalString_chars m k
  have hnospace : ∀ c ∈ (decimalString m k).data, isJsSpace c = false := by
    intro c hc
    rcases hchars c hc with h | h
    · exact isJsSpace_false_of_isDig c h
    · subst h; exact isJsSpace_dot_false
  have hnostrip : ∀ c ∈ (decimalString m k).data, isIndianStripChar c = false := by
    intro c hc
    rcases hchars c hc with h | h
    · exact isIndianStripChar_false_of_isDig c h
    · subst h; exact isIndianStripChar_dot_false
  have htrim : jsTrim (decimalString m k) = decimalString m k :=
    jsTrim_no_space _ hnospace
  have hclean : cleanIndian (decimalString m k) = (decimalString m k).data :=
    cleanIndian_no_strip _ hnostrip
  by_cases hk : k = 0
  · subst hk
    obtain ⟨a, as, hshape, hdig⟩ := natMSDigits_shape m
    have hdata : (decimalString m 0).data = natMSDigits m := by
      simp [decimalString, natToString]
    have hsent : ¬ isIndianSentinel (decimalString m 0) :=
      not_sentinel_of_digit_head _ a as (hdata.trans hshape) hdig
    have hrun : firstNumericRun (cleanIndian (decimalString m 0)) =
        some (natMSDigits m, []) := by
      rw [hclean, hdata]
      exact firstNumericRun_digits _ (natMSDigits_ne_nil m) (mem_natMSDigits_isDig m)
    unfold parseIndianStr
    rw [htrim]
    rw [if_neg hsent, hrun]
    simp only [parseFloatRun_digits _ (mem_natMSDigits_isDig m), natOfDigits_natMSDigits,
      regexTestAny_nil_cr, regexTestAny_nil_lac, if_false, Bool.false_eq_true]
    simp
  · set I := natMSDigits (m / 10 ^ k) with hIdef
    set fd := (natDigitsRev (m % 10 ^ k)).reverse with hfddef
    set F := List.replicate (k - fd.length) '0' ++ fd with hFdef
    have hIall : ∀ c ∈ I, isDig c = true := mem_natMSDigits_isDig _
    have hFall : ∀ c ∈ F, isDig c = true := by
      intro c hc
      rcases List.mem_append.mp hc with hc | hc
      · have := List.eq_of_mem_replicate hc
        subst this; decide
      · exact mem_natDigitsRev_isDig _ c (List.mem_reverse.mp hc)
    have hmodlt : m % 10 ^ k < 10 ^ k := Nat.mod_lt m (Nat.pos_pow_of_pos k (by norm_num))
    have hfdlen : fd.length ≤ k := by
      rw [hfddef, List.length_reverse]
      exact length_natDigitsRev_le k _ hmodlt
    have hFlen : F.length = k := by
      rw [hFdef]
      simp only [List.length_append, List.length_replicate]
      omega
    have hFne : F ≠ [] := by
      intro hnil
      rw [hnil] at hFlen
      exact hk (by simpa using hFlen.symm)
    have hFval : natOfDigits F = m % 10 ^ k := by
      rw [hFdef, hfddef, natOfDigits_replicate_zero, natOfDigits_revRoundtrip]
    have hdata : (decimalString m k).data = I ++ '.' :: F := by
      rw [hFdef, hfddef, hIdef]
      unfold decimalString
      rw [if_neg hk]
    obtain ⟨a, as, hshape, hdig⟩ := natMSDigits_shape (m / 10 ^ k)
    have hsent : ¬ isIndianSentinel (decimalString m k) := by
      refine not_sentinel_of_digit_head _ a (as ++ '.' :: F) ?_ hdig
      rw [hdata, hIdef, hshape]
      simp
    have hrun : firstNumericRun (cleanIndian (decimalString m k)) =
        some (I ++ '.' :: F, []) := by
      rw [hclean, hdata]
      exact firstNumericRun_digits_dot I F (natMSDigits_ne_nil _) hFne hIall hFall
    unfold parseIndianStr
    rw [htrim]
    rw [if_neg hsent, hrun]
    simp only [parseFloatRun_digits_dot I F hIall hFall, natOfDigits_natMSDigits,
      hFval, hFlen, regexTestAny_nil_cr, regexTestAny_nil_lac, if_false, Bool.false_eq_true]
    have hdivmod : ((10 : ℚ) ^ k * ((m / 10 ^ k : ℕ) : ℚ) + ((m % 10 ^ k : ℕ) : ℚ)) = (m : ℚ) := by
      exact_mod_cast Nat.div_add_mod m (10 ^ k)
    have hpow : (10 : ℚ) ^ k ≠ 0 := pow_ne_zero k (by norm_num)
    have hsum : ((m / 10 ^ k : ℕ) : ℚ) + ((m % 10 ^ k : ℕ) : ℚ) / 10 ^ k =
        ((10 : ℚ) ^ k * ((m / 10 ^ k : ℕ) : ℚ) + ((m % 10 ^ k : ℕ) : ℚ)) / 10 ^ k := by
      field_simp
      ring
    rw [hIdef, natOfDigits_natMSDigits, hsum, hdivmod]

/-- Every value of parseFloatRun is a natural number over a power of
ten. -/
theorem parseFloatRun_form (run : List Char) :
    ∃ m k : ℕ, parseFloatRun run = (m : ℚ) / 10 ^ k := by
  unfold parseFloatRun
  split
  · rename_i fs _
    refine ⟨natOfDigits (run.takeWhile isDig) * 10 ^ (fs.takeWhile isDig).length +
      natOfDigits (fs.takeWhile isDig), (fs.takeWhile isDig).length, ?_⟩
    have hpow : ((10 : ℚ)) ^ (fs.takeWhile isDig).length ≠ 0 := pow_ne_zero _ (by norm_num)
    push_cast
    field_simp
  · exact ⟨natOfDigits (run.takeWhile isDig), 0, by simp⟩

/-- Every value of the parseIndianNumber string pipeline is a natural
number over a power of ten. -/
theorem parseIndianStr_form (s : String) :
    ∃ m k : ℕ, parseIndianStr s = (m : ℚ) / 10 ^ k := by
  unfold parseIndianStr
  by_cases hsent : isIndianSentinel (jsTrim s)
  · exact ⟨0, 0, by rw [if_pos hsent]; simp⟩
  · rw [if_neg hsent]
    cases hrun : firstNumericRun (cleanIndian (jsTrim s)) with
    | none => exact ⟨0, 0, by simp⟩
    | some p =>
      obtain ⟨run, suffix⟩ := p
      obtain ⟨m, k, hmk⟩ := parseFloatRun_form run
      by_cases hcr : regexTestAny crAlts (suffix.map Char.toLower) = true
      · refine ⟨m * 10000000, k, ?_⟩
        simp only [hcr, if_true, hmk]
        push_cast
        ring
      · by_cases hlac : regexTestAny lacAlts (suffix.map Char.toLower) = true
        · refine ⟨m * 100000, k, ?_⟩
          simp only [hcr, hlac, if_true, if_false, Bool.false_eq_true, hmk]
          push_cast
          ring
        · refine ⟨m, k, ?_⟩
          simp only [hcr, hlac, if_false, Bool.false_eq_true, hmk]

/-- Every value of parseIndianNumber is a natural number over a power of
ten. -/
theorem parseIndianNumber_form (v : JSVal) :
    ∃ m k : ℕ, parseIndianNumber v = (m : ℚ) / 10 ^ k := by
  cases v with
  | vNull => exact ⟨0, 0, by simp [parseIndianNumber]⟩
  | vUndef => exact ⟨0, 0, by simp [parseIndianNumber]⟩
  | vStr s => exact parseIndianStr_form (jsToString (.vStr s))
  | vNum q => exact parseIndianStr_form (jsToString (.vNum q))
  | vBool b => exact parseIndianStr_form (jsToString (.vBool b))

theorem mem_of_mem_dropWhile {α : Type} (p : α → Bool) (l : List α) (c : α)
    (h : c ∈ l.dropWhile p) : c ∈ l := by
  induction l with
  | nil => simpa [List.dropWhile] using h
  | cons a as ih =>
    simp only [List.dropWhile] at h
    split at h
    · exact List.mem_cons_of_mem a (ih h)
    · exact h

theorem mem_of_jsTrim (s : String) (c : Char) (h : c ∈ (jsTrim s).data) :
    c ∈ s.data := by
  have h1 : c ∈ ((s.data.dropWhile isJsSpace).reverse.dropWhile isJsSpace).reverse := h
  rw [List.mem_reverse] at h1
  have h2 := mem_of_mem_dropWhile _ _ _ h1
  rw [List.mem_reverse] at h2
  exact mem_of_mem_dropWhile _ _ _ h2

theorem empty_append_str (s : String) : ("" : String) ++ s = s := by
  cases s
  rfl

theorem prime_factor_of_ten (p : ℕ) (hp : p.Prime) (hdvd : p ∣ 10) :
    p = 2 ∨ p = 5 := by
  have h2 : 2 ≤ p := hp.two_le
  have h10 : p ≤ 10 := Nat.le_of_dvd (by norm_num) hdvd
  interval_cases p <;>
    first
      | (left; rfl)
      | (right; rfl)
      | (exact absurd hdvd (by decide))
      | (exact absurd hp (by decide))

/-- A divisor of a power of ten is a product of a power of two and a
power of five. -/
theorem dvd_ten_pow_two_five (k : ℕ) :
    ∀ d : ℕ, 0 < d → d ∣ 10 ^ k → ∃ a b : ℕ, d = 2 ^ a * 5 ^ b := by
  intro d
  induction d using Nat.strong_induction_on with
  | _ d ih =>
    intro hd hdvd
    by_cases h1 : d = 1
    · exact ⟨0, 0, by simp [h1]⟩
    · obtain ⟨p, hp, hpd⟩ := Nat.exists_prime_and_dvd h1
      have hp10 : p ∣ 10 := hp.dvd_of_dvd_pow (hpd.trans hdvd)
      obtain ⟨e, he⟩ := hpd
      have hepos : 0 < e := by
        rcases Nat.eq_zero_or_pos e with h0 | h0
        · rw [h0, Nat.mul_zero] at he
          omega
        · exact h0
      have hplt : 2 ≤ p := hp.two_le
      have helt : e < d := by nlinarith
      have hedvd : e ∣ 10 ^ k := dvd_trans ⟨p, by rw [he]; ring⟩ hdvd
      obtain ⟨a, b, hab⟩ := ih e helt hepos hedvd
      rcases prime_factor_of_ten p hp hp10 with rfl | rfl
      · exact ⟨a + 1, b, by rw [he, hab]; ring⟩
      · exact ⟨a, b + 1, by rw [he, hab]; ring⟩

/-- A positive divisor of some power of ten divides a power of ten whose
exponent is at most the divisor itself; this is the exponent searched by
ratDecimalString. -/
theorem den_pow_ten_dvd (d k : ℕ) (hd : 0 < d) (h : d ∣ 10 ^ k) :
    ∃ j, j ≤ d ∧ 10 ^ j % d = 0 := by
  obtain ⟨a, b, hab⟩ := dvd_ten_pow_two_five k d hd h
  have ha2 : 2 ^ a ≤ d := Nat.le_of_dvd hd ⟨5 ^ b, hab⟩
  have hb5 : 5 ^ b ≤ d := Nat.le_of_dvd hd ⟨2 ^ a, by rw [hab]; ring⟩
  have ha : a ≤ d := le_trans (Nat.lt_two_pow a).le ha2
  have hb : b ≤ d := by
    have h1 : b < 2 ^ b := Nat.lt_two_pow b
    have h2 : (2 : ℕ) ^ b ≤ 5 ^ b := Nat.pow_le_pow_left (by norm_num) b
    omega
  refine ⟨max a b, max_le ha hb, Nat.mod_eq_zero_of_dvd ?_⟩
  rw [hab, show (10 : ℕ) ^ max a b = 2 ^ max a b * 5 ^ max a b from by rw [← Nat.mul_pow]]
  exact mul_dvd_mul (pow_dvd_pow 2 (le_max_left a b)) (pow_dvd_pow 5 (le_max_right a b))

/-- Reparsing the canonical printed decimal string of a non-negative
rational with power-of-ten denominator - the JS Number toString model
used by jsToString - recovers exactly that rational. -/
theorem parseIndianStr_ratDecimalString (m k : ℕ) :
    parseIndianStr (ratDecimalString ((m : ℚ) / 10 ^ k)) = (m : ℚ) / 10 ^ k := by
  set q : ℚ := (m : ℚ) / 10 ^ k with hq
  have hq0 : 0 ≤ q := by rw [hq]; positivity
  have hsign : ¬(q < 0) := not_lt.mpr hq0
  have hqdiv : Rat.divInt (m : ℤ) ((10 : ℤ) ^ k) = q := by
    rw [Rat.divInt_eq_div, hq]
    push_cast
    ring
  have hden : q.den ∣ 10 ^ k := by
    have h1 : ((q.den : ℤ)) ∣ (10 : ℤ) ^ k := by
      rw [← hqdiv]
      exact Rat.den_dvd (m : ℤ) ((10 : ℤ) ^ k)
    exact_mod_cast h1
  obtain ⟨j, hjle, hjmod⟩ := den_pow_ten_dvd q.den k q.den_pos hden
  have hsome : ((List.range (q.den + 1)).find? (fun j => 10 ^ j % q.den == 0)).isSome := by
    rw [List.find?_isSome]
    exact ⟨j, List.mem_range.mpr (by omega), by simpa using hjmod⟩
  obtain ⟨j0, hj0⟩ := Option.isSome_iff_exists.mp hsome
  have hj0dvd : q.den ∣ 10 ^ j0 :=
    Nat.dvd_of_mod_eq_zero (by simpa using List.find?_some hj0)
  have hrds : ratDecimalString q = decimalString (q.num.natAbs * (10 ^ j0 / q.den)) j0 := by
    unfold ratDecimalString
    dsimp only
    rw [hj0]
    dsimp only
    rw [if_neg hsign, empty_append_str]
  rw [hrds, parseIndianStr_decimalString]
  have hdne : ((q.den : ℚ)) ≠ 0 := Nat.cast_ne_zero.mpr q.den_pos.ne'
  have hcast : ((10 ^ j0 / q.den : ℕ) : ℚ) = (10 : ℚ) ^ j0 / (q.den : ℚ) := by
    rw [Nat.cast_div hj0dvd hdne]
    push_cast
    ring
  have hnum : ((q.num.natAbs : ℕ) : ℚ) = (q.num : ℚ) := by
    have h1 : (q.num.natAbs : ℤ) = q.num := Int.natAbs_of_nonneg (Rat.num_nonneg.mpr hq0)
    rw [← h1]
    exact (Int.cast_natCast q.num.natAbs).symm
  rw [Nat.cast_mul, hcast, hnum]
  have h10 : ((10 : ℚ)) ^ j0 ≠ 0 := pow_ne_zero _ (by norm_num)
  have hstep : (q.num : ℚ) * ((10 : ℚ) ^ j0 / (q.den : ℚ)) / (10 : ℚ) ^ j0 =
      (q.num : ℚ) / (q.den : ℚ) := by
    field_simp
    ring
  rw [hstep, Rat.num_div_den]

/-- C8: parseIndianNumber is idempotent on its own numeric-string output:
feeding the output number back through the normalizer - which stringifies
it with the canonical JS Number printer of this model (jsToString on a
number value, i.e. ratDecimalString) - returns the same number; stated
both on the number value itself and on its printed decimal string. -/
theorem parseIndianNumber_idempotent_decimal (v : JSVal) :
    parseIndianNumber (.vNum (parseIndianNumber v)) = parseIndianNumber v ∧
    parseIndianNumber (.vStr (ratDecimalString (parseIndianNumber v))) = parseIndianNumber v := by
  obtain ⟨m, k, h⟩ := parseIndianNumber_form v
  constructor
  · show parseIndianStr (ratDecimalString (parseIndianNumber v)) = parseIndianNumber v
    rw [h]
    exact parseIndianStr_ratDecimalString m k
  · show parseIndianStr (ratDecimalString (parseIndianNumber v)) = parseIndianNumber v
    rw [h]
    exact parseIndianStr_ratDecimalString m k

/-- C10: parseIndianNumber returns a non-negative (and, in this exact
rational model, necessarily finite) number for every input value, and the
sign of a negative input is dropped because the numeric-run regex carries
no sign: the minus-5 string parses to plus 5. -/
theorem parseIndianNumber_nonneg_unsigned :
    (∀ v : JSVal, 0 ≤ parseIndianNumber v) ∧
      parseIndianNumber (.vStr "-5") = 5 := by
  constructor
  · intro v
    obtain ⟨m, k, h⟩ := parseIndianNumber_form v
    rw [h]
    positivity
  · decide

/-- Evaluation of the parseIndianNumber pipeline once the numeric run is
known. -/
theorem parseIndianStr_run (s : String) (run suffix : List Char)
    (hsent : ¬ isIndianSentinel (jsTrim s))
    (hrun : firstNumericRun (cleanIndian (jsTrim s)) = some (run, suffix)) :
    parseIndianStr s =
      (if regexTestAny crAlts (suffix.map Char.toLower) then parseFloatRun run * 10000000
       else if regexTestAny lacAlts (suffix.map Char.toLower) then parseFloatRun run * 100000
       else parseFloatRun run) := by
  unfold parseIndianStr
  rw [if_neg hsent, hrun]

/-- C4: the currency normalizer strips the rupee glyph, Unicode
whitespace and separators and parses the first numeric run with
crore and lakh multipliers: the four boundary examples evaluate as the
specification states, all sentinel inputs return 0, every input without a
digit returns 0, and whenever the cleaned input yields a numeric run the
result is the parsed run times 10000000 under a cr-matching suffix, times
100000 under a lac or lakh matching suffix, and the plain parsed run
otherwise. Totality of the Lean function models that the normalizer never
fails. -/
theorem parseIndianNumber_currency_spec :
    (parseIndianNumber (.vStr "₹1,23,456") = 123456 ∧
     parseIndianNumber (.vStr "2.5 Cr") = 25000000 ∧
     parseIndianNumber (.vStr "1 lakh") = 100000 ∧
     parseIndianNumber (.vStr "--") = 0) ∧
    (parseIndianNumber (.vStr "") = 0 ∧
     parseIndianNumber (.vStr "-") = 0 ∧
     parseIndianNumber (.vStr "N/A") = 0 ∧
     parseIndianNumber (.vStr "null") = 0 ∧
     parseIndianNumber (.vStr "undefined") = 0) ∧
    (∀ s : String, (∀ c ∈ s.data, isDig c = false) →
      parseIndianNumber (.vStr s) = 0) ∧
    (∀ (s : String) (run suffix : List Char),
      firstNumericRun (cleanIndian (jsTrim s)) = some (run, suffix) →
      ¬ isIndianSentinel (jsTrim s) →
      (regexTestAny crAlts (suffix.map Char.toLower) = true →
        parseIndianNumber (.vStr s) = parseFloatRun run * 10000000) ∧
      (regexTestAny crAlts (suffix.map Char.toLower) = false →
        regexTestAny lacAlts (suffix.map Char.toLower) = true →
        parseIndianNumber (.vStr s) = parseFloatRun run * 100000) ∧
      (regexTestAny crAlts (suffix.map Char.toLower) = false →
        regexTestAny lacAlts (suffix.map Char.toLower) = false →
        parseIndianNumber (.vStr s) = parseFloatRun run)) := by
  refine ⟨⟨by decide, ?_, ?_, by decide⟩,
    ⟨by decide, by decide, by decide, by decide, by decide⟩, ?_, ?_⟩
  · show parseIndianStr "2.5 Cr" = 25000000
    rw [parseIndianStr_run "2.5 Cr" ("2.5".data) ("Cr".data) (by decide) (by decide),
      if_pos (by decide), show ("2.5").data = ['2'] ++ '.' :: ['5'] from rfl,
      parseFloatRun_digits_dot ['2'] ['5'] (by decide) (by decide),
      show natOfDigits ['2'] = 2 from by decide, show natOfDigits ['5'] = 5 from by decide]
    norm_num
  · show parseIndianStr "1 lakh" = 100000
    rw [parseIndianStr_run "1 lakh" ("1".data) ("lakh".data) (by decide) (by decide),
      if_neg (by decide), if_pos (by decide), show ("1").data = ['1'] from rfl,
      parseFloatRun_digits ['1'] (by decide),
      show natOfDigits ['1'] = 1 from by decide]
    norm_num
  · intro s hnod
    show parseIndianStr s = 0
    unfold parseIndianStr
    by_cases hsent : isIndianSentinel (jsTrim s)
    · rw [if_pos hsent]
    · rw [if_neg hsent]
      have hall : ∀ c ∈ cleanIndian (jsTrim s), (fun c => !isDig c) c = true := by
        intro c hc
        have hc2 : c ∈ (jsTrim s).data := List.mem_of_mem_filter hc
        have hc3 : c ∈ s.data := mem_of_jsTrim s c hc2
        simp [hnod c hc3]
      have hempty : (cleanIndian (jsTrim s)).dropWhile (fun c => !isDig c) = [] :=
        dropWhile_all_true _ _ hall
      have hnone : firstNumericRun (cleanIndian (jsTrim s)) = none := by
        unfold firstNumericRun
        rw [hempty]
        rfl
      rw [hnone]
  · intro s run suffix hrun hsent
    have hmain : parseIndianNumber (.vStr s) =
        (if regexTestAny crAlts (suffix.map Char.toLower) then parseFloatRun run * 10000000
         else if regexTestAny lacAlts (suffix.map Char.toLower) then parseFloatRun run * 100000
         else parseFloatRun run) := parseIndianStr_run s run suffix hsent hrun
    refine ⟨?_, ?_, ?_⟩
    · intro hcr
      rw [hmain, if_pos hcr]
    · intro hcr hlac
      rw [hmain, if_neg (by simp [hcr]), if_pos hlac]
    · intro hcr hlac
      rw [hmain, if_neg (by simp [hcr]), if_neg (by simp [hlac])]

/-- Witness for C4: the suffix-multiplier clauses applied at concrete
inputs through the theorem, plus the no-digit clause at a concrete
input. -/
theorem parseIndianNumber_currency_spec_witness :
    parseIndianNumber (.vStr "7 Crore") = 70000000 ∧
    parseIndianNumber (.vStr "3.5 Lakhs") = 350000 ∧
    parseIndianNumber (.vStr "xyz") = 0 := by
  obtain ⟨_, _, hnod, hgen⟩ := parseIndianNumber_currency_spec
  refine ⟨?_, ?_, ?_⟩
  · have h := (hgen "7 Crore" "7".data "Crore".data (by decide) (by decide)).1 (by decide)
    rw [h, show ("7").data = ['7'] from rfl, parseFloatRun_digits ['7'] (by decide),
      show natOfDigits ['7'] = 7 from by decide]
    norm_num
  · have h := (hgen "3.5 Lakhs" ("3.5".data) ("Lakhs".data) (by decide) (by decide)).2.1
      (by decide) (by decide)
    rw [h, show ("3.5").data = ['3'] ++ '.' :: ['5'] from rfl,
      parseFloatRun_digits_dot ['3'] ['5'] (by decide) (by decide),
      show natOfDigits ['3'] = 3 from by decide, show natOfDigits ['5'] = 5 from by decide]
    norm_num
  · exact hnod "xyz" (by decide)

/-! ## The recommended-versus-completed dedup invariant -/

theorem mem_mapWithIndexAux {α β : Type} (f : ℕ → α → β) (i : ℕ) (l : List α) (b : β)
    (h : b ∈ mapWithIndexAux f i l) : ∃ j a, a ∈ l ∧ b = f j a := by
  induction l generalizing i with
  | nil => simp [mapWithIndexAux] at h
  | cons x xs ih =>
    simp only [mapWithIndexAux, List.mem_cons] at h
    rcases h with h | h
    · exact ⟨i, x, List.mem_cons_self x xs, h⟩
    · obtain ⟨j, a, ha, hb⟩ := ih (i + 1) h
      exact ⟨j, a, List.mem_cons_of_mem x ha, hb⟩

theorem mem_mapWithIndex {α β : Type} (f : ℕ → α → β) (l : List α) (b : β)
    (h : b ∈ mapWithIndex f l) : ∃ j a, a ∈ l ∧ b = f j a :=
  mem_mapWithIndexAux f 0 l b h

/-- A row kept by the recommended filter has a parsed work id that is
positive and not in the completed-id set. -/
theorem recommendedKeep_id (S : List ℤ) (r : RawRecord)
    (h : recommendedKeep S r = true) :
    ∃ n : ℤ, jsParseInt r.WORK_RECOMMENDATION_DTL_ID = some n ∧ 0 < n ∧
      S.contains n = false := by
  unfold recommendedKeep at h
  simp only [Bool.and_eq_true] at h
  obtain ⟨⟨⟨hbase, hskip, hpos⟩, hdate⟩, hamt⟩ := h
  cases hj : jsParseInt r.WORK_RECOMMENDATION_DTL_ID with
  | none =>
    rw [hj] at hpos
    simp [intOrNull] at hpos
  | some n =>
    rw [hj] at hskip hpos
    by_cases hn : n = 0
    · rw [hn] at hpos
      simp [intOrNull] at hpos
    · simp only [intOrNull, hn, if_false] at hskip hpos
      refine ⟨n, rfl, by simpa using hpos, ?_⟩
      simpa using hskip

/-- A row kept by the completed filter has a positive parsed work id. -/
theorem completedKeep_id (r : RawRecord) (h : completedKeep r = true) :
    ∃ n : ℤ, jsParseInt r.WORK_RECOMMENDATION_DTL_ID = some n ∧ 0 < n := by
  unfold completedKeep at h
  simp only [Bool.and_eq_true] at h
  obtain ⟨⟨⟨hbase, hdate⟩, hamt⟩, hid⟩ := h
  cases hj : jsParseInt r.WORK_RECOMMENDATION_DTL_ID with
  | none => rw [hj] at hid; simp at hid
  | some n =>
    rw [hj] at hid
    simp only [Bool.and_eq_true, decide_eq_true_eq] at hid
    exact ⟨n, rfl, hid.2⟩

/-- Every record produced by transformWorksRecommended has a positive
work id outside the supplied completed-id set. -/
theorem transformWorksRecommended_excludes (data : List RawRecord) (house : String)
    (lsTerm : Option String) (S : List ℤ) (rec : RecommendedWorkRecord)
    (h : rec ∈ transformWorksRecommended data house lsTerm S) :
    0 < rec.workId ∧ S.contains rec.workId = false := by
  obtain ⟨j, a, ha, hb⟩ := mem_mapWithIndex _ _ _ h
  have hkeep : recommendedKeep S a = true := (List.mem_filter.mp ha).2
  obtain ⟨n, hn, hpos, hnotin⟩ := recommendedKeep_id S a hkeep
  have hid : rec.workId = n := by
    rw [hb]
    show intOrZero (jsParseInt a.WORK_RECOMMENDATION_DTL_ID) = n
    rw [hn]
    rfl
  rw [hid]
  exact ⟨hpos, hnotin⟩

/-- Every record produced by transformWorksCompleted has a positive work
id. -/
theorem transformWorksCompleted_pos (data : List RawRecord) (house : String)
    (lsTerm : Option String) (comp : CompletedWorkRecord)
    (h : comp ∈ transformWorksCompleted data house lsTerm) : 0 < comp.workId := by
  obtain ⟨j, a, ha, hb⟩ := mem_mapWithIndex _ _ _ h
  have hkeep : completedKeep a = true := (List.mem_filter.mp ha).2
  obtain ⟨n, hn, hpos⟩ := completedKeep_id a hkeep
  have hid : comp.workId = n := by
    rw [hb]
    show intOrZero (jsParseInt a.WORK_RECOMMENDATION_DTL_ID) = n
    rw [hn]
    rfl
  rw [hid]
  exact hpos

/-- The work id of a completed record with nonzero id is in the id set
built by transformAllData. -/
theorem mem_completedIdSet (l : List CompletedWorkRecord) (c : CompletedWorkRecord)
    (hc : c ∈ l) (hne : c.workId ≠ 0) : c.workId ∈ completedIdSet l := by
  unfold completedIdSet
  rw [List.mem_filter]
  exact ⟨List.mem_map.mpr ⟨c, hc, rfl⟩, by simpa using hne⟩

/-- The house-level dedup argument shared by both houses. -/
theorem house_dedup (completedRaw recommendedRaw : List RawRecord) (house : String)
    (lsTerm : Option String) (rec : RecommendedWorkRecord)
    (hrec : rec ∈ transformWorksRecommended recommendedRaw house lsTerm
      (completedIdSet (transformWorksCompleted completedRaw house lsTerm))) :
    rec.workId ∉
      (transformWorksCompleted completedRaw house lsTerm).map (fun c => c.workId) := by
  obtain ⟨hpos, hnotin⟩ := transformWorksRecommended_excludes _ _ _ _ _ hrec
  intro hmem
  obtain ⟨c, hc, hcid⟩ := List.mem_map.mp hmem
  have hcpos : 0 < c.workId := transformWorksCompleted_pos _ _ _ _ hc
  have : c.workId ∈ completedIdSet (transformWorksCompleted completedRaw house lsTerm) :=
    mem_completedIdSet _ c hc (by omega)
  rw [hcid] at this
  exact absurd this (by simpa using hnotin)

/-- C1: in every transformed batch, no recommended work record carries a
work id occurring among the work ids of the completed work records of the
same batch and house: completed works are transformed first and their id
set is excluded by the recommended transformation. -/
theorem recommended_disjoint_from_completed (apiData : ApiData) (lsTerm : Option String) :
    (∀ rec ∈ (transformAllData apiData lsTerm).lok_sabha.works_recommended,
      rec.workId ∉
        (transformAllData apiData lsTerm).lok_sabha.works_completed.map (fun c => c.workId)) ∧
    (∀ rec ∈ (transformAllData apiData lsTerm).rajya_sabha.works_recommended,
      rec.workId ∉
        (transformAllData apiData lsTerm).rajya_sabha.works_completed.map (fun c => c.workId)) := by
  constructor
  · intro rec hrec
    exact house_dedup apiData.lok_sabha.works_completed apiData.lok_sabha.works_recommended
      "Lok Sabha" lsTerm rec hrec
  · intro rec hrec
    exact house_dedup apiData.rajya_sabha.works_completed apiData.rajya_sabha.works_recommended
      "Rajya Sabha" none rec hrec

/-- A concrete raw recommended-work row that passes every filter. -/
def sampleRecommendedRow : RawRecord :=
  { STATE_NAME := .vStr "Kerala"
    MP_NAME := .vStr "Ravi Kumar"
    WORK_RECOMMENDATION_DTL_ID := .vStr "5"
    RECOMMENDATION_DATE := .vStr "01-Jan-2025"
    RECOMMENDED_AMOUNT := .vStr "100" }

/-- A concrete batch with one recommended row and nothing else. -/
def sampleApiData : ApiData :=
  { lok_sabha :=
      { works_completed := []
        works_recommended := [sampleRecommendedRow]
        expenditure := []
        allocated_limit := [] }
    rajya_sabha :=
      { works_completed := []
        works_recommended := []
        expenditure := []
        allocated_limit := [] } }

/-- Witness for C1: the concrete batch produces exactly one recommended
record and, by the theorem, its work id avoids every completed work id of
the batch. -/
theorem recommended_disjoint_from_completed_witness :
    ((transformAllData sampleApiData (some "18")).lok_sabha.works_recommended.all
      (fun rec =>
        !(((transformAllData sampleApiData (some "18")).lok_sabha.works_completed.map
            (fun c => c.workId)).contains rec.workId)) = true) ∧
    (transformAllData sampleApiData (some "18")).lok_sabha.works_recommended.length = 1 := by
  constructor
  · rw [List.all_eq_true]
    intro rec hrec
    have h := (recommended_disjoint_from_completed sampleApiData (some "18")).1 rec hrec
    simpa using h
  · rfl

/-- Counterexample to C3 as stated: on a network error, on the 30 second
timeout, and on a cookieless response, initializeSession resolves with the
normal boolean false; it never produces a raised SessionBootstrapError
(no such error exists in the code). -/
theorem initializeSession_no_bootstrap_error :
    initializeSession PortalEvent.netError true = SessionOutcome.result false ∧
    initializeSession PortalEvent.timeoutFired true = SessionOutcome.result false ∧
    initializeSession (PortalEvent.response none) true = SessionOutcome.result false ∧
    initializeSession PortalEvent.netError true ≠ SessionOutcome.raised "SessionBootstrapError" ∧
    initializeSession PortalEvent.timeoutFired true ≠ SessionOutcome.raised "SessionBootstrapError" ∧
    initializeSession (PortalEvent.response none) true ≠
      SessionOutcome.raised "SessionBootstrapError" := by
  decide

/-- C3 amended: initializeSession resolves false, a normal result rather
than a thrown error, when the portal returns no set-cookie headers or no
valid cookie pair, on a network error, and when the 30 second timer
fires. -/
theorem initializeSession_resolves_false (testOk : Bool) (headers : List String)
    (hnocookie : joinCookies headers = "") :
    initializeSession PortalEvent.netError testOk = SessionOutcome.result false ∧
    initializeSession PortalEvent.timeoutFired testOk = SessionOutcome.result false ∧
    initializeSession (PortalEvent.response none) testOk = SessionOutcome.result false ∧
    initializeSession (PortalEvent.response (some headers)) testOk =
      SessionOutcome.result false ∧
    sessionInitTimeoutMs = 30000 := by
  refine ⟨rfl, rfl, rfl, ?_, rfl⟩
  show (if headers.length = 0 then SessionOutcome.result false
    else if joinCookies headers = "" then SessionOutcome.result false
    else SessionOutcome.result testOk) = SessionOutcome.result false
  by_cases hlen : headers.length = 0
  · rw [if_pos hlen]
  · rw [if_neg hlen, if_pos hnocookie]

/-- Witness for C3 amended: a response whose only header carries no
equals sign yields no cookie pair and resolves false. -/
theorem initializeSession_resolves_false_witness :
    initializeSession (PortalEvent.response (some ["abc"])) true =
      SessionOutcome.result false ∧
    initializeSession PortalEvent.netError true = SessionOutcome.result false := by
  have h := initializeSession_resolves_false true ["abc"] (by decide)
  exact ⟨h.2.2.2.1, h.1⟩

/-- C6: for every valid report kind the POST body uses combo code 0,0,0,2
for Lok Sabha term 18, the same code with one trailing discriminator for
term 17, and 0,0,0,1 for Rajya Sabha with the term argument ignored. -/
theorem fetchData_combo_codes :
    (∀ dt key, dataTypeMap dt = some key →
      buildPostData "lok_sabha" dt "18" = some ("combo=0%2C0%2C0%2C2&key=" ++ key) ∧
      buildPostData "lok_sabha" dt "17" = some ("combo=0%2C0%2C0%2C2%2C5&key=" ++ key) ∧
      ∀ term, buildPostData "rajya_sabha" dt term = some ("combo=0%2C0%2C0%2C1&key=" ++ key)) ∧
    decodeCommasStr "0%2C0%2C0%2C2" = "0,0,0,2" ∧
    decodeCommasStr "0%2C0%2C0%2C2%2C5" = "0,0,0,2,5" ∧
    decodeCommasStr "0%2C0%2C0%2C1" = "0,0,0,1" ∧
    ("0%2C0%2C0%2C2%2C5" : String) = "0%2C0%2C0%2C2" ++ "%2C5" := by
  refine ⟨?_, by decide, by decide, by decide, by decide⟩
  intro dt key h
  refine ⟨?_, ?_, fun term => ?_⟩
  · unfold buildPostData houseCombo
    rw [h, show lowerStr "18" = "18" from by decide]
    simp
  · unfold buildPostData houseCombo
    rw [h, show lowerStr "17" = "17" from by decide]
    simp
  · unfold buildPostData houseCombo
    rw [h]
    simp

/-- Witness for C6: the works-completed kind at each chamber and term. -/
theorem fetchData_combo_codes_witness :
    buildPostData "lok_sabha" "works_completed" "18" =
      some "combo=0%2C0%2C0%2C2&key=Total%20Works%20Completed" ∧
    buildPostData "lok_sabha" "works_completed" "17" =
      some "combo=0%2C0%2C0%2C2%2C5&key=Total%20Works%20Completed" ∧
    buildPostData "rajya_sabha" "works_completed" "17" =
      some "combo=0%2C0%2C0%2C1&key=Total%20Works%20Completed" := by
  have h := fetchData_combo_codes.1 "works_completed" "Total%20Works%20Completed" (by decide)
  exact ⟨h.1, h.2.1, h.2.2 "17"⟩

/-- C7: calculateNextUpdate sends daily to the next day at 02:00, weekly
to the next Monday at 02:00 with the plus-seven fallback exactly when the
current day is already Monday (a Wednesday moves five days, not seven),
bi-weekly to plus fourteen days at 02:00, and an unrecognized frequency
behaves like daily. -/
theorem calculateNextUpdate_spec (now : JsDateTime) :
    calculateNextUpdate "daily" now = { days := now.days + 1, msOfDay := twoAMms } ∧
    (dayOfWeek (calculateNextUpdate "weekly" now) = 1 ∧
     now.days < (calculateNextUpdate "weekly" now).days ∧
     (calculateNextUpdate "weekly" now).days ≤ now.days + 7 ∧
     ((calculateNextUpdate "weekly" now).days = now.days + 7 ↔ dayOfWeek now = 1) ∧
     (calculateNextUpdate "weekly" now).msOfDay = twoAMms) ∧
    calculateNextUpdate "bi-weekly" now = { days := now.days + 14, msOfDay := twoAMms } ∧
    (∀ freq : String, lowerStr freq ≠ "daily" → lowerStr freq ≠ "weekly" →
      lowerStr freq ≠ "bi-weekly" →
      calculateNextUpdate freq now = calculateNextUpdate "daily" now) ∧
    (dayOfWeek now = 3 → (calculateNextUpdate "weekly" now).days = now.days + 5) := by
  have hdays : (calculateNextUpdate "weekly" now).days =
      now.days + (if (7 - dayOfWeek now + 1) % 7 = 0 then 7 else (7 - dayOfWeek now + 1) % 7) :=
    rfl
  have hdow : dayOfWeek now = (now.days + 4) % 7 := rfl
  refine ⟨rfl, ⟨?_, ?_, ?_, ?_, rfl⟩, rfl, ?_, ?_⟩
  · show ((calculateNextUpdate "weekly" now).days + 4) % 7 = 1
    rw [hdays, hdow]
    by_cases h0 : (7 - (now.days + 4) % 7 + 1) % 7 = 0
    · rw [if_pos h0]
      omega
    · rw [if_neg h0]
      omega
  · rw [hdays, hdow]
    by_cases h0 : (7 - (now.days + 4) % 7 + 1) % 7 = 0
    · rw [if_pos h0]
      omega
    · rw [if_neg h0]
      omega
  · rw [hdays, hdow]
    by_cases h0 : (7 - (now.days + 4) % 7 + 1) % 7 = 0
    · rw [if_pos h0]
    · rw [if_neg h0]
      omega
  · rw [hdays, hdow]
    by_cases h0 : (7 - (now.days + 4) % 7 + 1) % 7 = 0
    · rw [if_pos h0]
      constructor
      · intro _
        omega
      · intro _
        omega
    · rw [if_neg h0]
      constructor
      · intro h1
        omega
      · intro h1
        omega
  · intro freq h1 h2 h3
    unfold calculateNextUpdate
    dsimp only
    rw [if_neg h1, if_neg h2, if_neg h3]
    rfl
  · intro h
    rw [hdays, h]
    norm_num

/-- Witness for C7: day 6 of the model epoch is a Wednesday, weekly moves
five days to the Monday at day 11, and the unrecognized frequency
monthly behaves like daily. -/
theorem calculateNextUpdate_spec_witness :
    (calculateNextUpdate "weekly" { days := 6, msOfDay := 0 }).days = 11 ∧
    dayOfWeek (calculateNextUpdate "weekly" { days := 6, msOfDay := 0 }) = 1 ∧
    calculateNextUpdate "monthly" { days := 6, msOfDay := 0 } =
      calculateNextUpdate "daily" { days := 6, msOfDay := 0 } := by
  have h := calculateNextUpdate_spec { days := 6, msOfDay := 0 }
  exact ⟨h.2.2.2.2 (by decide), h.2.1.1,
    h.2.2.2.1 "monthly" (by decide) (by decide) (by decide)⟩

/-- C9: getAttachmentIds turns an HTTP 404 from the attachment-id
endpoint into the normal empty list for every work id and phase flag,
while every other error propagates unchanged. -/
theorem getAttachmentIds_404_empty (workId : String) (flag : ℕ) (e : JsError) :
    (e.status = some 404 → getAttachmentIds workId flag (Except.error e) = Except.ok []) ∧
    (e.status ≠ some 404 → getAttachmentIds workId flag (Except.error e) = Except.error e) := by
  constructor
  · intro h
    show (if e.status = some 404 then (Except.ok [] : Except JsError (List AttachmentOut))
      else Except.error e) = Except.ok []
    rw [if_pos h]
  · intro h
    show (if e.status = some 404 then (Except.ok [] : Except JsError (List AttachmentOut))
      else Except.error e) = Except.error e
    rw [if_neg h]

/-- Witness for C9: a 404 yields the empty list, a 500 propagates. -/
theorem getAttachmentIds_404_empty_witness :
    getAttachmentIds "149239" 1 (Except.error { status := some 404 }) = Except.ok [] ∧
    getAttachmentIds "149239" 3 (Except.error { status := some 500 }) =
      Except.error { status := some 500 } := by
  refine ⟨(getAttachmentIds_404_empty "149239" 1 { status := some 404 }).1 rfl,
    (getAttachmentIds_404_empty "149239" 3 { status := some 500 }).2 (by decide)⟩

/-- C2 evaluated at the failing input: uploading photo.png stores the png
key, but the existence probe hard-codes the jpg key, so the round trip
returns false; with a jpg file name the round trip holds, and a never
uploaded triple is false as the claim states. -/
theorem uploadThenExists_key_mismatch :
    imageExistsInR2
      ((uploadImageToR2 [] "img.example" "1" "completed" "42" 10 "photo.png").1)
      "1" "completed" "42" = false ∧
    imageExistsInR2
      ((uploadImageToR2 [] "img.example" "1" "completed" "42" 10 "photo.jpg").1)
      "1" "completed" "42" = true ∧
    imageExistsInR2 [] "1" "completed" "42" = false ∧
    uploadKey "1" "completed" "42" "photo.png" ≠ existsKey "1" "completed" "42" ∧
    uploadKey "1" "completed" "42" "photo.jpg" = existsKey "1" "completed" "42" := by
  decide

/-! ## Retry policy of downloadImageData -/

theorem goDownload_ok (o : ℕ → Except JsError RespData) (rand : ℕ → ℚ)
    (attempt remaining : ℕ) (lastErr : Option JsError) (delays : List ℚ) (s : String)
    (h : downloadStep (o attempt) = Except.ok s) :
    goDownload o rand attempt (remaining + 1) lastErr delays = (Except.ok s, delays) := by
  unfold goDownload
  rw [h]

theorem goDownload_nonretry (o : ℕ → Except JsError RespData) (rand : ℕ → ℚ)
    (attempt remaining : ℕ) (lastErr : Option JsError) (delays : List ℚ) (e : JsError)
    (h : downloadStep (o attempt) = Except.error e)
    (hr : isRetryableError (some e) = false) :
    goDownload o rand attempt (remaining + 1) lastErr delays = (Except.error e, delays) := by
  unfold goDownload
  rw [h]
  dsimp only
  rw [hr]
  simp

theorem goDownload_last (o : ℕ → Except JsError RespData) (rand : ℕ → ℚ)
    (attempt : ℕ) (lastErr : Option JsError) (delays : List ℚ) (e : JsError)
    (h : downloadStep (o attempt) = Except.error e)
    (hr : isRetryableError (some e) = true) :
    goDownload o rand attempt 1 lastErr delays = (Except.error e, delays) := by
  show goDownload o rand attempt (0 + 1) lastErr delays = (Except.error e, delays)
  unfold goDownload
  rw [h]
  dsimp only
  rw [hr]
  simp

theorem goDownload_step (o : ℕ → Except JsError RespData) (rand : ℕ → ℚ)
    (attempt remaining : ℕ) (lastErr : Option JsError) (delays : List ℚ) (e : JsError)
    (h : downloadStep (o attempt) = Except.error e)
    (hr : isRetryableError (some e) = true) :
    goDownload o rand attempt (remaining + 2) lastErr delays =
      goDownload o rand (attempt + 1) (remaining + 1) (some e)
        (delays ++ [calculateDelay attempt (rand attempt)]) := by
  show goDownload o rand attempt ((remaining + 1) + 1) lastErr delays = _
  conv_lhs => unfold goDownload
  rw [h]
  dsimp only
  rw [hr]
  simp

/-- C5: downloadImageData retries exactly the retryable errors (network
codes, HTTP 5xx, HTTP 429, timeout messages) up to 3 attempts; any
non-retryable error is raised immediately from the attempt that produced
it with no further request; three retryable failures raise the third
(last) error after sleeping the two backoff delays; the backoff delay is
the base 2000 ms doubled per attempt, within 10 percent jitter above the
exponential value, and capped at 10000 ms. -/
theorem downloadImageData_retry_policy :
    (∀ (o : ℕ → Except JsError RespData) (rand : ℕ → ℚ) (e : JsError),
      downloadStep (o 1) = Except.error e → isRetryableError (some e) = false →
      downloadImageData o rand = (Except.error e, [])) ∧
    (∀ (o : ℕ → Except JsError RespData) (rand : ℕ → ℚ) (e1 e2 : JsError),
      downloadStep (o 1) = Except.error e1 → isRetryableError (some e1) = true →
      downloadStep (o 2) = Except.error e2 → isRetryableError (some e2) = false →
      downloadImageData o rand = (Except.error e2, [calculateDelay 1 (rand 1)])) ∧
    (∀ (o : ℕ → Except JsError RespData) (rand : ℕ → ℚ) (e1 e2 e3 : JsError),
      downloadStep (o 1) = Except.error e1 → isRetryableError (some e1) = true →
      downloadStep (o 2) = Except.error e2 → isRetryableError (some e2) = true →
      downloadStep (o 3) = Except.error e3 → isRetryableError (some e3) = true →
      downloadImageData o rand =
        (Except.error e3, [calculateDelay 1 (rand 1), calculateDelay 2 (rand 2)])) ∧
    (∀ (o : ℕ → Except JsError RespData) (rand : ℕ → ℚ) (e1 : JsError) (s : String),
      downloadStep (o 1) = Except.error e1 → isRetryableError (some e1) = true →
      downloadStep (o 2) = Except.ok s →
      downloadImageData o rand = (Except.ok s, [calculateDelay 1 (rand 1)])) ∧
    (∀ (o : ℕ → Except JsError RespData) (rand : ℕ → ℚ) (s : String),
      downloadStep (o 1) = Except.ok s →
      downloadImageData o rand = (Except.ok s, [])) ∧
    (∀ (a : ℕ) (r : ℚ), 0 ≤ r → r ≤ 1 →
      calculateDelay a r ≤ retryMaxDelay ∧
      calculateDelay a r ≤ retryBaseDelay * 2 ^ (a - 1) * (11 / 10)) ∧
    (∀ r : ℚ, 0 ≤ r →
      2000 ≤ calculateDelay 1 r ∧ 4000 ≤ calculateDelay 2 r) ∧
    (isRetryableError (some { code := some "ECONNRESET" }) = true ∧
     isRetryableError (some { status := some 500 }) = true ∧
     isRetryableError (some { status := some 503 }) = true ∧
     isRetryableError (some { status := some 429 }) = true ∧
     isRetryableError (some { message := some "timeout of 30000ms exceeded" }) = true ∧
     isRetryableError (some { status := some 404 }) = false ∧
     isRetryableError (some { status := some 400, message := some "Bad Request" }) = false ∧
     isRetryableError (some invalidFormatError) = false ∧
     isRetryableError none = false) := by
  refine ⟨?_, ?_, ?_, ?_, ?_, ?_, ?_, by decide⟩
  · intro o rand e h hr
    exact goDownload_nonretry o rand 1 2 none [] e h hr
  · intro o rand e1 e2 h1 hr1 h2 hr2
    show goDownload o rand 1 3 none [] = _
    rw [goDownload_step o rand 1 1 none [] e1 h1 hr1]
    simpa using goDownload_nonretry o rand 2 1 (some e1) [calculateDelay 1 (rand 1)] e2 h2 hr2
  · intro o rand e1 e2 e3 h1 hr1 h2 hr2 h3 hr3
    show goDownload o rand 1 3 none [] = _
    rw [goDownload_step o rand 1 1 none [] e1 h1 hr1]
    rw [show ([] : List ℚ) ++ [calculateDelay 1 (rand 1)] = [calculateDelay 1 (rand 1)] from rfl]
    rw [goDownload_step o rand 2 0 (some e1) [calculateDelay 1 (rand 1)] e2 h2 hr2]
    simpa using goDownload_last o rand 3 (some e2)
      ([calculateDelay 1 (rand 1)] ++ [calculateDelay 2 (rand 2)]) e3 h3 hr3
  · intro o rand e1 s h1 hr1 h2
    show goDownload o rand 1 3 none [] = _
    rw [goDownload_step o rand 1 1 none [] e1 h1 hr1]
    simpa using goDownload_ok o rand 2 1 (some e1) [calculateDelay 1 (rand 1)] s h2
  · intro o rand s h
    exact goDownload_ok o rand 1 2 none [] s h
  · intro a r hr0 hr1
    unfold calculateDelay retryBaseDelay retryMaxDelay
    constructor
    · exact min_le_right _ _
    · refine le_trans (min_le_left _ _) ?_
      have hp : (0 : ℚ) ≤ 2 ^ (a - 1) := pow_nonneg (by norm_num) _
      have hmul : r * (200 * 2 ^ (a - 1)) ≤ 1 * (200 * 2 ^ (a - 1)) :=
        mul_le_mul_of_nonneg_right hr1 (by positivity)
      nlinarith [hmul]
  · intro r hr0
    constructor
    · unfold calculateDelay retryBaseDelay retryMaxDelay
      rw [le_min_iff]
      constructor
      · nlinarith
      · norm_num
    · unfold calculateDelay retryBaseDelay retryMaxDelay
      rw [le_min_iff]
      constructor
      · nlinarith
      · norm_num

/-- Witness for C5: a persistent HTTP 500 schedule exhausts the three
attempts and surfaces the last error after the two backoff sleeps. -/
theorem downloadImageData_retry_policy_witness :
    downloadImageData (fun _ => Except.error { status := some 500 }) (fun _ => 0) =
      (Except.error { status := some 500 }, [calculateDelay 1 0, calculateDelay 2 0]) := by
  exact downloadImageData_retry_policy.2.2.1 (fun _ => Except.error { status := some 500 })
    (fun _ => 0) _ _ _ rfl (by decide) rfl (by decide) rfl (by decide)
